import Mathlib

/-!
Verification of the domain-mcp multi-source domain resolution pipeline.

The Rust sources under `src/tools/` are shallowly embedded below.  Strings are
modelled as Lean `String` (operated on through their character lists), Rust
`Result<T>` as `Except String T`, and Rust `Option<T>` as `Option T`.  All
network and process I/O is abstracted as explicit inputs: every embedded
function takes the upstream responses it would have fetched as arguments,
and the pure control flow and data manipulation are translated directly from
the source.
-/

namespace DomainMcp

/-- Fuel-driven core of `trimStartMatchesList`; the fuel only serves
structural recursion and is always supplied as the list length, which
bounds the number of removable copies of the pattern. -/
def trimStartAux (pat : List Char) : Nat → List Char → List Char
  | 0, s => s
  | Nat.succ fuel, s =>
    if pat ≠ [] ∧ pat.isPrefixOf s then trimStartAux pat fuel (s.drop pat.length)
    else s

/-- Rust `str::trim_start_matches(pat)` semantics on character lists:
repeatedly remove the pattern from the front while it is a prefix. -/
def trimStartMatchesList (pat : List Char) (s : List Char) : List Char :=
  trimStartAux pat s.length s

/-- Drop from the end of the list while the predicate holds
(Rust `trim_end_matches(c)` for a single-character pattern, and the
right half of `str::trim`). -/
def dropEndWhile (p : Char → Bool) (s : List Char) : List Char :=
  (s.reverse.dropWhile p).reverse

/-- Rust `str::trim`: remove leading and trailing whitespace. -/
def trimChars (s : List Char) : List Char :=
  dropEndWhile Char.isWhitespace (s.dropWhile Char.isWhitespace)

/-- ASCII lowercasing of one character, as Rust `char::to_lowercase`
acts on ASCII text (the only case exercised by this code base). -/
def rustToLower (c : Char) : Char :=
  if 65 ≤ c.toNat ∧ c.toNat ≤ 90 then Char.ofNat (c.toNat + 32) else c

/-- Rust `str::to_lowercase` (ASCII fragment). -/
def toLowerStr (s : String) : String :=
  String.mk (s.toList.map rustToLower)

/-- Boolean substring test on character lists (contiguous occurrence). -/
def listIsInfixOf (needle : List Char) : List Char → Bool
  | [] => needle.isEmpty
  | c :: t => needle.isPrefixOf (c :: t) || listIsInfixOf needle t

/-- Rust `str::contains(&str)`: substring containment. -/
def containsSub (hay needle : String) : Bool :=
  listIsInfixOf needle.toList hay.toList

/-- Rust `str::ends_with(&str)`. -/
def endsWithStr (s pat : String) : Bool :=
  pat.toList.reverse.isPrefixOf s.toList.reverse

/-- Rust `str::starts_with(&str)`. -/
def startsWithStr (s pat : String) : Bool :=
  pat.toList.isPrefixOf s.toList

/-- Rust `str::contains(char)`. -/
def strContainsChar (s : String) (c : Char) : Bool :=
  s.toList.contains c

/-- Embeds `normalize_domain` from `src/tools/domain.rs`:
trim, lowercase, `trim_start_matches("http://")`,
`trim_start_matches("https://")`, `trim_start_matches("www.")`,
`trim_end_matches('/')`. -/
def normalize_domain (domain : String) : String :=
  let cs := trimChars domain.toList
  let cs := cs.map rustToLower
  let cs := trimStartMatchesList "http://".toList cs
  let cs := trimStartMatchesList "https://".toList cs
  let cs := trimStartMatchesList "www.".toList cs
  let cs := dropEndWhile (fun c => c == '/') cs
  String.mk cs

example : normalize_domain "example.com" = "example.com" := by decide
example : normalize_domain "HTTP://WWW.EXAMPLE.COM/" = "example.com" := by decide
example : normalize_domain "  https://www.example.com/  " = "example.com" := by decide
example : normalize_domain "www.http://example.com" = "http://example.com" := by decide
example : normalize_domain "example.com//" = "example.com" := by decide

/-- Rust `str::split_whitespace`: maximal runs of non-whitespace characters. -/
def splitWhitespaceList (l : List Char) : List (List Char) :=
  (l.foldr
    (fun c acc =>
      if c.isWhitespace then [] :: acc
      else
        match acc with
        | [] => [[c]]
        | w :: ws => (c :: w) :: ws)
    []).filter (fun w => !w.isEmpty)

/-- Rust `str::split_whitespace` on a `String`. -/
def splitWhitespace (s : String) : List String :=
  (splitWhitespaceList s.toList).map String.mk

example : splitWhitespace " 10  mail.example.com " = ["10", "mail.example.com"] := by
  decide

/-- Digits-only decimal reading of a character list; `none` when empty or any
character is not an ASCII digit. -/
def readDecDigits : List Char → Option Nat
  | [] => none
  | cs =>
    cs.foldl
      (fun acc c =>
        acc.bind fun n =>
          if 48 ≤ c.toNat ∧ c.toNat ≤ 57 then some (n * 10 + (c.toNat - 48))
          else none)
      (some 0)

/-- Rust `str::parse::<u32>()`: optional leading `+`, decimal digits,
failure on overflow past `u32::MAX`. -/
def rustParseU32 (s : String) : Option Nat :=
  let cs := match s.toList with
    | '+' :: rest => rest
    | cs => cs
  (readDecDigits cs).bind fun n => if n ≤ 4294967295 then some n else none

/-- Rust `str::parse::<i32>()`: optional leading sign, decimal digits,
failure outside the `i32` range. -/
def rustParseI32 (s : String) : Option Int :=
  let signed : Bool × List Char := match s.toList with
    | '+' :: rest => (false, rest)
    | '-' :: rest => (true, rest)
    | cs => (false, cs)
  (readDecDigits signed.2).bind fun n =>
    let v : Int := if signed.1 then -(n : Int) else (n : Int)
    if -2147483648 ≤ v ∧ v ≤ 2147483647 then some v else none

example : rustParseU32 "2023120101" = some 2023120101 := by decide
example : rustParseU32 "abc" = none := by decide
example : rustParseI32 "-3600" = some (-3600) := by decide

/-- Embeds `MxRecord` from `src/tools/dns.rs`. -/
structure MxRecord where
  priority : Nat
  exchange : String
  deriving Repr, DecidableEq

/-- Embeds `SoaRecord` from `src/tools/dns.rs` (`serial`/`minimum` are `u32`,
`refresh`/`retry`/`expire` are `i32`). -/
structure SoaRecord where
  primary_ns : String
  responsible_party : String
  serial : Nat
  refresh : Int
  retry : Int
  expire : Int
  minimum : Nat
  deriving Repr, DecidableEq

/-- Embeds `DnsLookupResult` from `src/tools/dns.rs`. -/
structure DnsLookupResult where
  domain : String
  a_records : List String
  aaaa_records : List String
  mx_records : List MxRecord
  txt_records : List String
  ns_records : List String
  cname_records : List String
  soa_record : Option SoaRecord
  deriving Repr, DecidableEq

/-- The SOA branch of `dns::lookup`: split the first answer's data on
whitespace; at least seven fields are required, numeric fields parse with
`unwrap_or(0)`. -/
def parse_soa_data (soa_data : String) : Option SoaRecord :=
  let parts := splitWhitespace soa_data
  if parts.length ≥ 7 then
    some
      { primary_ns := parts.getD 0 ""
        responsible_party := parts.getD 1 ""
        serial := (rustParseU32 (parts.getD 2 "")).getD 0
        refresh := (rustParseI32 (parts.getD 3 "")).getD 0
        retry := (rustParseI32 (parts.getD 4 "")).getD 0
        expire := (rustParseI32 (parts.getD 5 "")).getD 0
        minimum := (rustParseU32 (parts.getD 6 "")).getD 0 }
  else none

/-- The MX branch of `dns::lookup` applied to one answer's data text:
split on whitespace, need at least two tokens, first must parse as `u16`. -/
def parse_mx_data (record : String) : Option MxRecord :=
  let parts := splitWhitespace record
  if parts.length ≥ 2 then
    match (rustParseU32 (parts.getD 0 "")).bind
        (fun n => if n ≤ 65535 then some n else none) with
    | some priority => some { priority, exchange := parts.getD 1 "" }
    | none => none
  else none

/-- Embeds `dns::lookup` from `src/tools/dns.rs`.  Each record-type query result is
passed in as the `(data, TTL)` pairs `cloudflare_dns_lookup` would return, or
an error for a failed query; failures degrade to empty results per type. -/
def dns_lookup (domain : String)
    (a aaaa mx txt ns cname soa : Except String (List (String × Option Nat))) :
    Except String DnsLookupResult :=
  let simple : Except String (List (String × Option Nat)) → List String :=
    fun r => ((r.toOption.getD []).map Prod.fst)
  let mx_records := match mx with
    | .ok records => records.filterMap (fun rt => parse_mx_data rt.1)
    | .error _ => []
  let soa_record := match soa with
    | .ok records =>
      match records.head? with
      | some (soa_data, _ttl) => parse_soa_data soa_data
      | none => none
    | .error _ => none
  .ok
    { domain
      a_records := simple a
      aaaa_records := simple aaaa
      mx_records
      txt_records := simple txt
      ns_records := simple ns
      cname_records := simple cname
      soa_record }

example :
    parse_soa_data "ns1.example.com admin.example.com 2023120101 3600 1800 604800 86400"
      = some
        { primary_ns := "ns1.example.com", responsible_party := "admin.example.com"
          serial := 2023120101, refresh := 3600, retry := 1800, expire := 604800
          minimum := 86400 } := by decide
example : parse_soa_data "ns1 admin 1 2 3 4" = none := by decide
example : parse_mx_data "10 mail.example.com" =
    some { priority := 10, exchange := "mail.example.com" } := by decide
example : parse_mx_data "mail.example.com" = none := by decide

/-- JSON values, for the untyped `serde_json::Value` fields of the RDAP
model (the registrar vCard array). -/
inductive JsonVal where
  | null
  | bool (b : Bool)
  | num (n : Int)
  | str (s : String)
  | arr (xs : List JsonVal)
  | obj (fields : List (String × JsonVal))

/-- Embeds `serde_json::Value::as_str`. -/
def JsonVal.asStr : JsonVal → Option String
  | .str s => some s
  | _ => none

/-- Embeds `serde_json::Value::as_array`. -/
def JsonVal.asArr : JsonVal → Option (List JsonVal)
  | .arr xs => some xs
  | _ => none

/-- Embeds `RdapEvent` from `src/tools/rdap.rs`. -/
structure RdapEvent where
  event_action : Option String
  event_date : Option String
  event_actor : Option String

/-- Embeds `RdapEntity` from `src/tools/rdap.rs` (the fields the extraction
helpers read; nested `events`/`entities`/`links` are never consulted). -/
structure RdapEntity where
  object_class_name : Option String
  handle : Option String
  vcard_array : Option JsonVal
  roles : Option (List String)

/-- Embeds `RdapNameserver` from `src/tools/rdap.rs`. -/
structure RdapNameserver where
  object_class_name : Option String
  ldh_name : Option String

/-- Embeds `RdapDomain` from `src/tools/rdap.rs` (the fields the extraction
helpers read; `secureDNS`/`links`/`notices` are never consulted and are
carried only by the opaque serializer). -/
structure RdapDomain where
  object_class_name : Option String
  handle : Option String
  ldh_name : Option String
  status : Option (List String)
  events : Option (List RdapEvent)
  entities : Option (List RdapEntity)
  nameservers : Option (List RdapNameserver)

/-- Embeds `extract_creation_date` from `src/tools/rdap.rs`: date of the first
event whose action is exactly `registration` or exactly `last changed`. -/
def extract_creation_date (rdap_domain : RdapDomain) : Option String :=
  match rdap_domain.events with
  | none => none
  | some events =>
    (events.find? fun event =>
        event.event_action == some "registration"
          || event.event_action == some "last changed").bind
      fun event => event.event_date

/-- Embeds `extract_expiry_date` from `src/tools/rdap.rs`. -/
def extract_expiry_date (rdap_domain : RdapDomain) : Option String :=
  match rdap_domain.events with
  | none => none
  | some events =>
    (events.find? fun event => event.event_action == some "expiration").bind
      fun event => event.event_date

/-- Embeds `extract_updated_date` from `src/tools/rdap.rs`. -/
def extract_updated_date (rdap_domain : RdapDomain) : Option String :=
  match rdap_domain.events with
  | none => none
  | some events =>
    (events.find? fun event =>
        event.event_action == some "last changed"
          || event.event_action == some "last update of RDAP database").bind
      fun event => event.event_date

/-- The inner vCard scan of `extract_registrar`: first entry that is an
array of length at least four whose first element is the string `fn` and
whose fourth element is a string. -/
def vcardFnName : List JsonVal → Option String
  | [] => none
  | entry :: rest =>
    match entry.asArr with
    | some entry_array =>
      if entry_array.length ≥ 4 then
        match (entry_array.getD 0 .null).asStr with
        | some field_name =>
          if field_name = "fn" then
            match (entry_array.getD 3 .null).asStr with
            | some name => some name
            | none => vcardFnName rest
          else vcardFnName rest
        | none => vcardFnName rest
      else vcardFnName rest
    | none => vcardFnName rest

/-- The vCard unwrapping of `extract_registrar`: the second element of the
vCard array holds the entry list. -/
def vcardRegistrarName (vcard_array : JsonVal) : Option String :=
  match vcard_array.asArr with
  | some vcard_data =>
    if vcard_data.length > 1 then
      match (vcard_data.getD 1 .null).asArr with
      | some vcard_entries => vcardFnName vcard_entries
      | none => none
    else none
  | none => none

/-- The entity scan of `extract_registrar` from `src/tools/rdap.rs`. -/
def registrarFromEntities : List RdapEntity → Option String
  | [] => none
  | entity :: rest =>
    let hit := match entity.roles with
      | some roles => roles.contains "registrar"
      | none => false
    if hit then
      match entity.vcard_array.bind vcardRegistrarName with
      | some name => some name
      | none =>
        match entity.handle with
        | some handle => some handle
        | none => registrarFromEntities rest
    else registrarFromEntities rest

/-- Embeds `extract_registrar` from `src/tools/rdap.rs`. -/
def extract_registrar (rdap_domain : RdapDomain) : Option String :=
  match rdap_domain.entities with
  | some entities => registrarFromEntities entities
  | none => none

/-- Embeds `extract_nameservers` from `src/tools/rdap.rs`. -/
def extract_nameservers (rdap_domain : RdapDomain) : List String :=
  match rdap_domain.nameservers with
  | some nameservers => nameservers.filterMap (fun ns => ns.ldh_name)
  | none => []

/-- Embeds `extract_status` from `src/tools/rdap.rs`. -/
def rdap_extract_status (rdap_domain : RdapDomain) : List String :=
  rdap_domain.status.getD []

/-- Embeds `WhoisInfo` from `src/tools/whois.rs`. -/
structure WhoisInfo where
  domain : String
  registrar : Option String
  registrant : Option String
  creation_date : Option String
  expiry_date : Option String
  updated_date : Option String
  name_servers : List String
  status : List String
  raw_data : String
  rdap_available : Bool
  deriving Repr, DecidableEq

/-- One label pattern of the WHOIS text extraction, modelling the regexes
of shape `Label:\s*(.+)` used in `src/tools/whois.rs`: the first occurrence
of the label followed (after whitespace) by a non-empty run of non-newline
characters.  Regex search order (leftmost occurrence first) is preserved;
occurrences whose value would be empty are skipped. -/
def extractAfterLabel (label : List Char) : List Char → Option (List Char)
  | [] => none
  | c :: rest =>
    if label.isPrefixOf (c :: rest) then
      let tail := (c :: rest).drop label.length
      let val := (tail.dropWhile Char.isWhitespace).takeWhile (fun ch => ch ≠ '\n')
      if val.isEmpty then extractAfterLabel label rest else some val
    else extractAfterLabel label rest

/-- All matches of one label pattern (`captures_iter`). -/
def collectAfterLabel (label : List Char) : List Char → List (List Char)
  | [] => []
  | c :: rest =>
    if label.isPrefixOf (c :: rest) then
      let tail := (c :: rest).drop label.length
      let val := (tail.dropWhile Char.isWhitespace).takeWhile (fun ch => ch ≠ '\n')
      if val.isEmpty then collectAfterLabel label rest
      else val :: collectAfterLabel label rest
    else collectAfterLabel label rest

/-- Embeds `extract_field` from `src/tools/whois.rs`: ordered pattern list,
first matching pattern wins, captured value trimmed. -/
def extract_field (text : String) : List String → Option String
  | [] => none
  | pattern :: rest =>
    match extractAfterLabel pattern.toList text.toList with
    | some val => some (String.mk (trimChars val))
    | none => extract_field text rest

/-- Embeds `extract_name_servers` from `src/tools/whois.rs`: all matches of each
pattern in order, trimmed and lowercased, deduplicated by exact string. -/
def extract_name_servers (text : String) : List String :=
  ["Name Server:", "nserver:", "NS:", "Nameservers:"].foldl
    (fun servers pattern =>
      (collectAfterLabel pattern.toList text.toList).foldl
        (fun servers val =>
          let server := toLowerStr (String.mk (trimChars val))
          if servers.contains server then servers else servers ++ [server])
        servers)
    []

/-- Embeds `extract_status` from `src/tools/whois.rs`: all matches of each pattern
in order, trimmed, deduplicated by exact string. -/
def whois_extract_status (text : String) : List String :=
  ["Domain Status:", "Status:", "state:"].foldl
    (fun statuses pattern =>
      (collectAfterLabel pattern.toList text.toList).foldl
        (fun statuses val =>
          let status := String.mk (trimChars val)
          if statuses.contains status then statuses else statuses ++ [status])
        statuses)
    []

/-- Embeds `lookup_command_line_whois` from `src/tools/whois.rs`.  `cmd_output`
models the result of spawning the external `whois` client: a spawn/join
failure, or the captured standard-output text. -/
def lookup_command_line_whois (domain : String)
    (cmd_output : Except String String) : Except String WhoisInfo :=
  match cmd_output with
  | .error e => .error e
  | .ok raw_data =>
    .ok
      { domain
        registrar :=
          extract_field raw_data ["Registrar:", "Sponsoring Registrar:", "Registrar Name:"]
        registrant :=
          extract_field raw_data ["Registrant Organization:", "Registrant:", "Organization:"]
        creation_date :=
          extract_field raw_data
            ["Creation Date:", "Created:", "Domain Registration Date:", "created:"]
        expiry_date :=
          extract_field raw_data
            ["Registry Expiry Date:", "Expiry Date:", "Expiration Date:", "expires:"]
        updated_date :=
          extract_field raw_data ["Updated Date:", "Last Updated:", "Modified:", "changed:"]
        name_servers := extract_name_servers raw_data
        status := whois_extract_status raw_data
        raw_data
        rdap_available := false }

/-- Embeds `whois::lookup` from `src/tools/whois.rs`.  `rdap_result` models the
outcome of `RdapClient::lookup_domain`; `cmd_output` the external process
run; `serialize` stands for `serde_json::to_string_pretty` on the RDAP
document (an external library function, passed in opaquely). -/
def whois_lookup (domain : String)
    (rdap_result : Except String RdapDomain)
    (cmd_output : Except String String)
    (serialize : RdapDomain → String) : Except String WhoisInfo :=
  match rdap_result with
  | .ok rdap_domain =>
    .ok
      { domain
        registrar := extract_registrar rdap_domain
        registrant := none
        creation_date := extract_creation_date rdap_domain
        expiry_date := extract_expiry_date rdap_domain
        updated_date := extract_updated_date rdap_domain
        name_servers := extract_nameservers rdap_domain
        status := rdap_extract_status rdap_domain
        raw_data := serialize rdap_domain
        rdap_available := true }
  | .error e =>
    match lookup_command_line_whois domain cmd_output with
    | .ok whois_info => .ok { whois_info with rdap_available := false }
    | .error _ =>
      .ok
        { domain
          registrar := none
          registrant := none
          creation_date := none
          expiry_date := none
          updated_date := none
          name_servers := []
          status := []
          raw_data := "RDAP lookup failed: " ++ e
          rdap_available := false }

example :
    extract_field "Domain: x\nRegistrar: MarkMonitor Inc.\n" ["Registrar:"]
      = some "MarkMonitor Inc." := by decide
example :
    extract_name_servers "Name Server: NS1.EXAMPLE.COM\nName Server: ns2.example.com\n"
      = ["ns1.example.com", "ns2.example.com"] := by decide

/-- Embeds `DomainAvailability` from `src/tools/domain.rs`. -/
structure DomainAvailability where
  domain : String
  available : Bool
  reason : String
  whois_available : Option Bool
  dns_available : Option Bool
  deriving Repr, DecidableEq

/-- Embeds `BulkCheckSummary` from `src/tools/domain.rs`. -/
structure BulkCheckSummary where
  total : Nat
  available : Nat
  taken : Nat
  errors : Nat
  deriving Repr, DecidableEq

/-- Embeds `BulkCheckResult` from `src/tools/domain.rs`. -/
structure BulkCheckResult where
  domains : List DomainAvailability
  summary : BulkCheckSummary
  deriving Repr, DecidableEq

/-- The WHOIS-availability signal of `check_availability`: the raw payload
contains one of four "not found" phrases or no registrar was extracted;
`unwrap_or(true)` when the WHOIS sub-lookup failed. -/
def whoisAvailableSignal (whois_result : Except String WhoisInfo) : Bool :=
  match whois_result with
  | .ok info =>
    containsSub info.raw_data "No matching record"
      || containsSub info.raw_data "NOT FOUND"
      || containsSub info.raw_data "No Data Found"
      || containsSub info.raw_data "domain name not known"
      || info.registrar.isNone
  | .error _ => true

/-- The DNS-availability signal of `check_availability`: A, AAAA and NS
record lists all empty; `unwrap_or(true)` when the DNS sub-lookup failed. -/
def dnsAvailableSignal (dns_result : Except String DnsLookupResult) : Bool :=
  match dns_result with
  | .ok info =>
    info.a_records.isEmpty && info.aaaa_records.isEmpty && info.ns_records.isEmpty
  | .error _ => true

/-- The body of `check_availability` from `src/tools/domain.rs`, once the
two concurrent sub-lookups have completed (the `tokio::join!` results are
passed in). -/
def check_availability_core (domain : String)
    (whois_result : Except String WhoisInfo)
    (dns_result : Except String DnsLookupResult) : DomainAvailability :=
  let domain := normalize_domain domain
  let whois_available := whoisAvailableSignal whois_result
  let dns_available := dnsAvailableSignal dns_result
  let available := whois_available || dns_available
  let reason :=
    if available then
      if whois_available && dns_available then
        "Domain appears to be completely available (no WHOIS or DNS records)"
      else if whois_available then
        "Domain has no WHOIS record but has DNS entries"
      else
        "Domain has WHOIS record but no DNS entries"
    else
      "Domain is registered and active"
  { domain
    available
    reason
    whois_available := some whois_available
    dns_available := some dns_available }

/-- The per-domain upstream world of one availability check: every network
or process interaction `check_availability` transitively performs. -/
structure Upstream where
  rdap_result : Except String RdapDomain
  cmd_output : Except String String
  serialize : RdapDomain → String
  a : Except String (List (String × Option Nat))
  aaaa : Except String (List (String × Option Nat))
  mx : Except String (List (String × Option Nat))
  txt : Except String (List (String × Option Nat))
  ns : Except String (List (String × Option Nat))
  cname : Except String (List (String × Option Nat))
  soa : Except String (List (String × Option Nat))

/-- Embeds `check_availability` from `src/tools/domain.rs`: runs the WHOIS chain
and the DNS resolver (their upstream inputs supplied by `u`) and combines
the signals.  The Rust function wraps the verdict in `Ok`. -/
def check_availability (domain : String) (u : Upstream) :
    Except String DomainAvailability :=
  .ok
    (check_availability_core domain
      (whois_lookup (normalize_domain domain) u.rdap_result u.cmd_output u.serialize)
      (dns_lookup (normalize_domain domain) u.a u.aaaa u.mx u.txt u.ns u.cname u.soa))

/-- The placeholder verdict pushed by `bulk_check` when a per-domain check
fails. -/
def errorPlaceholder (domain : String) : DomainAvailability :=
  { domain
    available := false
    reason := "Error checking domain"
    whois_available := none
    dns_available := none }

/-- The collection loop of `bulk_check`: walk the zipped
(domain, result) pairs in order, counting and materialising verdicts. -/
def bulk_collect :
    List (String × Except String DomainAvailability) →
      List DomainAvailability × Nat × Nat × Nat
  | [] => ([], 0, 0, 0)
  | (domain, result) :: rest =>
    let c := bulk_collect rest
    match result with
    | .ok availability =>
      (availability :: c.1,
        (if availability.available then c.2.1 + 1 else c.2.1),
        (if availability.available then c.2.2.1 else c.2.2.1 + 1),
        c.2.2.2)
    | .error _ => (errorPlaceholder domain :: c.1, c.2.1, c.2.2.1, c.2.2.2 + 1)

/-- Embeds `bulk_check` from `src/tools/domain.rs`.  `results` models the
`join_all` outcome, one entry per input domain in order. -/
def bulk_check (domains : List String)
    (results : List (Except String DomainAvailability)) : BulkCheckResult :=
  let c := bulk_collect (domains.zip results)
  { domains := c.1
    summary :=
      { total := domains.length, available := c.2.1, taken := c.2.2.1, errors := c.2.2.2 } }

example :
    (check_availability_core "example.com"
        (.ok
          { domain := "example.com", registrar := none, registrant := none
            creation_date := none, expiry_date := none, updated_date := none
            name_servers := [], status := []
            raw_data := "No matching record for example.com"
            rdap_available := false })
        (.ok
          { domain := "example.com", a_records := [], aaaa_records := []
            mx_records := [], txt_records := [], ns_records := []
            cname_records := [], soa_record := none })).available = true := by decide

/-- Embeds `ExpiredDomain` from `src/tools/expired.rs`. -/
structure ExpiredDomain where
  domain : String
  status : String
  source : String
  created : Option String
  updated : Option String
  end_time : Option String
  appraisal : Option String
  starting_price : Option String
  has_dns : Option Bool
  deriving Repr, DecidableEq

/-- Embeds `DomainsDBDomain` from `src/tools/expired.rs` (one record of the parsed
DomainsDB JSON response). -/
structure DomainsDBDomain where
  domain : Option String
  create_date : Option String
  update_date : Option String
  is_dead : Option String
  a_records : Option (List String)
  ns_records : Option (List String)

/-- The keyword filter shared by all four adapters:
`keyword.is_empty() || domain_name.to_lowercase().contains(&keyword.to_lowercase())`. -/
def matchesKeyword (keyword domain_name : String) : Bool :=
  keyword.isEmpty || containsSub (toLowerStr domain_name) (toLowerStr keyword)

/-- The TLD filter shared by all four adapters:
`tld.is_empty() || domain_name.ends_with(&format!(".{}", tld))`. -/
def matchesTld (tld domain_name : String) : Bool :=
  tld.isEmpty || endsWithStr domain_name ("." ++ tld)

/-- The record loop of `search_domainsdb`: dot check, keyword/TLD filter,
status from the `isDead` literal, stop at ten results. -/
def domainsdbLoop (keyword tld : String) (acc : List ExpiredDomain) :
    List DomainsDBDomain → List ExpiredDomain
  | [] => acc
  | domain_info :: rest =>
    match domain_info.domain with
    | none => domainsdbLoop keyword tld acc rest
    | some domain_name =>
      if strContainsChar domain_name '.' then
        if matchesKeyword keyword domain_name && matchesTld tld domain_name then
          let has_dns := domain_info.a_records.isSome || domain_info.ns_records.isSome
          let acc := acc ++
            [{ domain := domain_name
               status := if domain_info.is_dead == some "True" then "expired" else "unknown"
               source := "DomainsDB"
               created := domain_info.create_date
               updated := domain_info.update_date
               end_time := none
               appraisal := none
               starting_price := none
               has_dns := some has_dns }]
          if acc.length ≥ 10 then acc else domainsdbLoop keyword tld acc rest
        else domainsdbLoop keyword tld acc rest
      else domainsdbLoop keyword tld acc rest

/-- Embeds `search_domainsdb` from `src/tools/expired.rs`.  `response` models the
HTTP fetch and JSON decode of the DomainsDB query: an error for a network
failure, non-success status or decode failure, otherwise the optional
record list of the response body. -/
def search_domainsdb (keyword tld : String)
    (response : Except String (Option (List DomainsDBDomain))) :
    Except String (List ExpiredDomain) :=
  match response with
  | .error e => .error e
  | .ok data_domains =>
    match data_domains with
    | some domains => .ok (domainsdbLoop keyword tld [] domains)
    | none => .ok []

/-- Splitting a character list at a separator character, keeping empty
segments (Rust `str::split(char)` semantics). -/
def splitOnChar (sep : Char) (l : List Char) : List (List Char) :=
  l.foldr
    (fun c acc =>
      match acc with
      | [] => [[c]]
      | w :: ws => if c == sep then [] :: (w :: ws) else (c :: w) :: ws)
    [[]]

/-- Rust `str::split(char)` on a `String`. -/
def splitOnCharStr (sep : Char) (s : String) : List String :=
  (splitOnChar sep s.toList).map String.mk

example : splitOnCharStr ',' "a,b,,c" = ["a", "b", "", "c"] := by decide
example : splitOnCharStr ',' "abc" = ["abc"] := by decide

/-- Rust `str::lines()`: split at newlines, strip one trailing carriage
return per line, no trailing empty line. -/
def rustLines (s : String) : List String :=
  let parts := splitOnCharStr '\n' s
  let parts := match parts.reverse with
    | "" :: rev => rev.reverse
    | _ => parts
  parts.map fun l =>
    match l.toList.reverse with
    | '\r' :: rev => String.mk rev.reverse
    | _ => l

example : rustLines "a,b\r\nc\n" = ["a,b", "c"] := by decide
example : rustLines "" = [] := by decide

/-- Rust `str::trim` on a `String`. -/
def rustTrim (s : String) : String :=
  String.mk (trimChars s.toList)

/-- Rust `str::trim_matches('"')`: strip quote characters from both ends. -/
def trimQuotes (s : String) : String :=
  String.mk (dropEndWhile (fun c => c == '"') (s.toList.dropWhile (fun c => c == '"')))

/-- The line loop of `search_dynadot`: skip the header (already removed by
the caller), skip blank lines, comma-split with per-field trim, require at
least two columns, dot check, keyword/TLD filter, optional columns 1/3/4,
stop at ten results. -/
def dynadotLoop (keyword tld : String) (acc : List ExpiredDomain) :
    List String → List ExpiredDomain
  | [] => acc
  | line :: rest =>
    if (rustTrim line).isEmpty then dynadotLoop keyword tld acc rest
    else
      let parts := (splitOnCharStr ',' line).map rustTrim
      if parts.length ≥ 2 then
        let domain_name := rustTrim (parts.getD 0 "")
        if strContainsChar domain_name '.' then
          if matchesKeyword keyword domain_name && matchesTld tld domain_name then
            let acc := acc ++
              [{ domain := domain_name
                 status := "pending delete"
                 source := "Dynadot"
                 created := none
                 updated := none
                 end_time := if parts.length > 1 then some (parts.getD 1 "") else none
                 appraisal := if parts.length > 3 then some (parts.getD 3 "") else none
                 starting_price := if parts.length > 4 then some (parts.getD 4 "") else none
                 has_dns := none }]
            if acc.length ≥ 10 then acc else dynadotLoop keyword tld acc rest
          else dynadotLoop keyword tld acc rest
        else dynadotLoop keyword tld acc rest
      else dynadotLoop keyword tld acc rest

/-- Embeds `search_dynadot` from `src/tools/expired.rs`.  `response` models the
CSV fetch: an error for a network failure, non-success status or body-read
failure, otherwise the body text.  The header line is skipped. -/
def search_dynadot (keyword tld : String) (response : Except String String) :
    Except String (List ExpiredDomain) :=
  match response with
  | .error e => .error e
  | .ok text => .ok (dynadotLoop keyword tld [] ((rustLines text).drop 1))

/-- One fetched URL in `search_namejet`: the request failed or returned a
non-success status (`fetchFail`, skipped via the catch-all match arm); the
body read failed (`bodyErr`, propagated as an error by the `?`); or the
body text. -/
inductive UrlFetch where
  | fetchFail
  | bodyErr (e : String)
  | body (text : String)

/-- The line loop of `search_namejet` over one inventory file: skip blank
and `#` lines, take the first comma column (or the whole line), trim and
strip quotes, dot and `#` checks, keyword/TLD filter, stop at ten results
accumulated across both URLs. -/
def namejetLoop (keyword tld : String) (acc : List ExpiredDomain) :
    List String → List ExpiredDomain
  | [] => acc
  | line :: rest =>
    if (rustTrim line).isEmpty || startsWithStr line "#" then
      namejetLoop keyword tld acc rest
    else
      let domain_name := trimQuotes (rustTrim ((splitOnCharStr ',' line).headD line))
      if strContainsChar domain_name '.' && !startsWithStr domain_name "#" then
        if matchesKeyword keyword domain_name && matchesTld tld domain_name then
          let acc := acc ++
            [{ domain := domain_name
               status := "auction/pending"
               source := "NameJet"
               created := none
               updated := none
               end_time := none
               appraisal := none
               starting_price := none
               has_dns := none }]
          if acc.length ≥ 10 then acc else namejetLoop keyword tld acc rest
        else namejetLoop keyword tld acc rest
      else namejetLoop keyword tld acc rest

/-- Embeds `search_namejet` from `src/tools/expired.rs`: two candidate inventory
URLs tried in order; a failed fetch falls through to the next URL, a failed
body read aborts with an error, and once a URL has produced any result the
second URL is not tried. -/
def search_namejet (keyword tld : String) (fetch1 fetch2 : UrlFetch) :
    Except String (List ExpiredDomain) :=
  match fetch1 with
  | .bodyErr e => .error e
  | .fetchFail =>
    match fetch2 with
    | .bodyErr e => .error e
    | .fetchFail => .ok []
    | .body text => .ok (namejetLoop keyword tld [] (rustLines text))
  | .body text =>
    let results := namejetLoop keyword tld [] (rustLines text)
    if results.isEmpty then
      match fetch2 with
      | .bodyErr e => .error e
      | .fetchFail => .ok results
      | .body text2 => .ok (namejetLoop keyword tld results (rustLines text2))
    else .ok results

/-- The line loop of `search_snapnames`: skip blank lines, comma-split with
trim and quote-strip per field, dot check on the first column, keyword/TLD
filter, stop at ten results. -/
def snapnamesLoop (keyword tld : String) (acc : List ExpiredDomain) :
    List String → List ExpiredDomain
  | [] => acc
  | line :: rest =>
    if (rustTrim line).isEmpty then snapnamesLoop keyword tld acc rest
    else
      let parts := (splitOnCharStr ',' line).map (fun p => trimQuotes (rustTrim p))
      if !parts.isEmpty && strContainsChar (parts.getD 0 "") '.' then
        let domain_name := parts.getD 0 ""
        if matchesKeyword keyword domain_name && matchesTld tld domain_name then
          let acc := acc ++
            [{ domain := domain_name
               status := "pending delete"
               source := "SnapNames"
               created := none
               updated := none
               end_time := none
               appraisal := none
               starting_price := none
               has_dns := none }]
          if acc.length ≥ 10 then acc else snapnamesLoop keyword tld acc rest
        else snapnamesLoop keyword tld acc rest
      else snapnamesLoop keyword tld acc rest

/-- Embeds `search_snapnames` from `src/tools/expired.rs`.  `response` models the
CSV fetch as in `search_dynadot`.  The header line is skipped. -/
def search_snapnames (keyword tld : String) (response : Except String String) :
    Except String (List ExpiredDomain) :=
  match response with
  | .error e => .error e
  | .ok text => .ok (snapnamesLoop keyword tld [] ((rustLines text).drop 1))

/-- One source block of `search_expired_domains`: walk the source's results,
skipping domains already seen, recording new ones, and stopping as soon as
the accumulated list reaches ten entries (the early `return`). -/
def process_source (acc : List ExpiredDomain) (seen : List String) :
    List ExpiredDomain → List ExpiredDomain × List String
  | [] => (acc, seen)
  | d :: rest =>
    if seen.contains d.domain then process_source acc seen rest
    else
      let acc := acc ++ [d]
      let seen := d.domain :: seen
      if acc.length ≥ 10 then (acc, seen) else process_source acc seen rest

/-- The result list a source contributes: its items on success, nothing on
failure (`if let Ok(...)`). -/
def source_items : Except String (List ExpiredDomain) → List ExpiredDomain
  | .ok items => items
  | .error _ => []

/-- Embeds `search_expired_domains` from `src/tools/expired.rs`, abstracted over
the four source outcomes.  Besides the aggregated list it returns, for
sources 2–4, whether the source was queried at all (the `domains.len() < 10`
guards combined with the early returns). -/
def search_expired_domains
    (s1 s2 s3 s4 : Except String (List ExpiredDomain)) :
    List ExpiredDomain × Bool × Bool × Bool :=
  let p1 := process_source [] [] (source_items s1)
  if p1.1.length < 10 then
    let p2 := process_source p1.1 p1.2 (source_items s2)
    if p2.1.length < 10 then
      let p3 := process_source p2.1 p2.2 (source_items s3)
      if p3.1.length < 10 then
        ((process_source p3.1 p3.2 (source_items s4)).1, true, true, true)
      else (p3.1, true, true, false)
    else (p2.1, true, false, false)
  else (p1.1, false, false, false)

/-- Embeds `DomainAge` from `src/tools/domain_age_check.rs`. -/
structure DomainAge where
  domain : String
  creation_date : Option String
  age_days : Option Int
  age_years : Option Float

/-- Embeds `check_age` from `src/tools/domain_age_check.rs`.  `parse_age` stands
for `parse_date_and_calculate_age`, which reads the process clock and the
chrono date parsers (modelled as an oracle from the creation-date string to
an optional day count). -/
def check_age (domain : String)
    (rdap_result : Except String RdapDomain)
    (cmd_output : Except String String)
    (serialize : RdapDomain → String)
    (parse_age : String → Option Int) : Except String DomainAge :=
  let domain := normalize_domain domain
  match whois_lookup domain rdap_result cmd_output serialize with
  | .error e => .error e
  | .ok whois_info =>
    let ages : Option Int × Option Float :=
      match whois_info.creation_date with
      | some creation_date_str =>
        match parse_age creation_date_str with
        | some days => (some days, some (Float.ofInt days / 365.25))
        | none => (none, none)
      | none => (none, none)
    .ok
      { domain
        creation_date := whois_info.creation_date
        age_days := ages.1
        age_years := ages.2 }

/-- Modelled from claim C7's words: the normalizer trims whitespace,
lowercases, strips ONE leading `http://` or `https://`, ONE leading `www.`
and ONE trailing `/`, removing exactly one occurrence of each
prefix/suffix. -/
def normalize_domain_claimed (domain : String) : String :=
  let cs := trimChars domain.toList
  let cs := cs.map rustToLower
  let cs :=
    if ("http://".toList).isPrefixOf cs then cs.drop "http://".toList.length
    else if ("https://".toList).isPrefixOf cs then cs.drop "https://".toList.length
    else cs
  let cs := if ("www.".toList).isPrefixOf cs then cs.drop "www.".toList.length else cs
  let cs := match cs.reverse with
    | '/' :: rev => rev.reverse
    | _ => cs
  String.mk cs

/-- A bounded while-loop stripping a leading pattern as long as it is
present, used by the amended-specification normalizer. -/
def stripWhile (pat : List Char) : Nat → List Char → List Char
  | 0, s => s
  | Nat.succ fuel, s =>
    if pat.isPrefixOf s ∧ pat ≠ [] then stripWhile pat fuel (s.drop pat.length)
    else s

/-- Modelled from the amended claim C7: trim whitespace, lowercase,
repeatedly strip a leading `http://` while present, then repeatedly strip a
leading `https://` while present, then repeatedly strip a leading `www.`
while present, then strip every trailing `/`.  The loop bound is the input
length, which no intermediate stage exceeds. -/
def normalize_domain_spec (domain : String) : String :=
  let n := domain.toList.length
  let cs := trimChars domain.toList
  let cs := cs.map rustToLower
  let cs := stripWhile "http://".toList n cs
  let cs := stripWhile "https://".toList n cs
  let cs := stripWhile "www.".toList n cs
  let cs := dropEndWhile (fun c => c == '/') cs
  String.mk cs

/-- The verdict `bulk_check` is expected to align with one input domain:
the computed verdict on success, the error placeholder on failure. -/
def expectedVerdict (domain : String) :
    Except String DomainAvailability → DomainAvailability
  | .ok v => v
  | .error _ => errorPlaceholder domain

/-- The number of failed entries among the per-domain check results. -/
def countErrors (results : List (Except String DomainAvailability)) : Nat :=
  results.countP fun r => match r with | .error _ => true | .ok _ => false

/-! ### Supporting lemmas -/

theorem mk_toList (s : String) : String.mk s.toList = s := rfl

theorem toList_mk (l : List Char) : (String.mk l).toList = l := rfl

theorem exists_append_dropWhile (p : Char → Bool) (l : List Char) :
    ∃ t, t ++ l.dropWhile p = l := by
  induction l with
  | nil => exact ⟨[], rfl⟩
  | cons a l ih =>
    by_cases h : p a
    · obtain ⟨t, ht⟩ := ih
      exact ⟨a :: t, by simp [List.dropWhile_cons, h, ht]⟩
    · exact ⟨[], by simp [List.dropWhile_cons, h]⟩

theorem exists_append_trimStartAux (pat : List Char) :
    ∀ (fuel : Nat) (s : List Char), ∃ t, t ++ trimStartAux pat fuel s = s := by
  intro fuel
  induction fuel with
  | zero => exact fun s => ⟨[], rfl⟩
  | succ f ih =>
    intro s
    by_cases h : pat ≠ [] ∧ pat.isPrefixOf s
    · obtain ⟨t, ht⟩ := ih (s.drop pat.length)
      refine ⟨s.take pat.length ++ t, ?_⟩
      simp only [trimStartAux, if_pos h]
      rw [List.append_assoc, ht, List.take_append_drop]
    · exact ⟨[], by simp only [trimStartAux]; rw [if_neg h, List.nil_append]⟩

theorem exists_append_trimStart (pat s : List Char) :
    ∃ t, t ++ trimStartMatchesList pat s = s :=
  exists_append_trimStartAux pat s.length s

theorem exists_dropEndWhile_append (p : Char → Bool) (l : List Char) :
    ∃ u, dropEndWhile p l ++ u = l := by
  obtain ⟨t, ht⟩ := exists_append_dropWhile p l.reverse
  refine ⟨t.reverse, ?_⟩
  have h2 := congrArg List.reverse ht
  simpa [dropEndWhile, List.reverse_append] using h2

theorem dropWhile_idem (p : Char → Bool) (l : List Char) :
    (l.dropWhile p).dropWhile p = l.dropWhile p := by
  induction l with
  | nil => rfl
  | cons a l ih =>
    by_cases h : p a
    · simp [List.dropWhile_cons, h, ih]
    · simp [List.dropWhile_cons, h]

theorem dropEndWhile_idem (p : Char → Bool) (l : List Char) :
    dropEndWhile p (dropEndWhile p l) = dropEndWhile p l := by
  simp [dropEndWhile, dropWhile_idem]

theorem toNat_ofNat_valid {n : Nat} (h : n.isValidChar) :
    (Char.ofNat n).toNat = n := by
  unfold Char.ofNat
  rw [dif_pos h]
  rfl

theorem rustToLower_idem (c : Char) : rustToLower (rustToLower c) = rustToLower c := by
  by_cases h : 65 ≤ c.toNat ∧ c.toNat ≤ 90
  · have h1 : rustToLower c = Char.ofNat (c.toNat + 32) := by
      simp only [rustToLower, if_pos h]
    have hv : (c.toNat + 32).isValidChar := Or.inl (by omega)
    have ht : (Char.ofNat (c.toNat + 32)).toNat = c.toNat + 32 := toNat_ofNat_valid hv
    rw [h1]
    simp only [rustToLower, ht]
    rw [if_neg (by omega)]
  · have h1 : rustToLower c = c := by simp only [rustToLower, if_neg h]
    rw [h1, h1]

theorem map_rustToLower_fixed {l : List Char} (h : ∀ c ∈ l, rustToLower c = c) :
    l.map rustToLower = l := by
  induction l with
  | nil => rfl
  | cons a l ih =>
    simp only [List.map_cons, h a (List.mem_cons_self a l),
      ih fun c hc => h c (List.mem_cons_of_mem a hc)]

theorem normalize_toList (x : String) :
    (normalize_domain x).toList =
      dropEndWhile (fun c => c == '/')
        (trimStartMatchesList "www.".toList
          (trimStartMatchesList "https://".toList
            (trimStartMatchesList "http://".toList
              ((trimChars x.toList).map rustToLower)))) := rfl

theorem normalize_chars_fixed (x : String) :
    ∀ c ∈ (normalize_domain x).toList, rustToLower c = c := by
  intro c hc
  obtain ⟨u0, hu0⟩ := exists_dropEndWhile_append (fun c => c == '/')
    (trimStartMatchesList "www.".toList
      (trimStartMatchesList "https://".toList
        (trimStartMatchesList "http://".toList
          ((trimChars x.toList).map rustToLower))))
  obtain ⟨t3, ht3⟩ := exists_append_trimStart "www.".toList
    (trimStartMatchesList "https://".toList
      (trimStartMatchesList "http://".toList
        ((trimChars x.toList).map rustToLower)))
  obtain ⟨t2, ht2⟩ := exists_append_trimStart "https://".toList
    (trimStartMatchesList "http://".toList
      ((trimChars x.toList).map rustToLower))
  obtain ⟨t1, ht1⟩ := exists_append_trimStart "http://".toList
    ((trimChars x.toList).map rustToLower)
  rw [normalize_toList] at hc
  have h4 := hu0 ▸ List.mem_append.mpr (Or.inl hc)
  have h3 := ht3 ▸ List.mem_append.mpr (Or.inr h4)
  have h2 := ht2 ▸ List.mem_append.mpr (Or.inr h3)
  have h1 := ht1 ▸ List.mem_append.mpr (Or.inr h2)
  obtain ⟨c0, _, rfl⟩ := List.mem_map.mp h1
  exact rustToLower_idem c0

theorem trimStart_eq_of_not (pat s : List Char) (h : pat.isPrefixOf s = false) :
    trimStartMatchesList pat s = s := by
  rw [trimStartMatchesList]
  cases hl : s.length with
  | zero => rfl
  | succ n => simp [trimStartAux, h]

theorem trimStartAux_nil (pat : List Char) (f : Nat) : trimStartAux pat f [] = [] := by
  cases f with
  | zero => rfl
  | succ f =>
    cases pat with
    | nil => simp [trimStartAux]
    | cons a as => simp [trimStartAux, List.isPrefixOf]

theorem trimStartAux_fuel_inv (pat : List Char) :
    ∀ (f₁ f₂ : Nat) (s : List Char), s.length ≤ f₁ → s.length ≤ f₂ →
      trimStartAux pat f₁ s = trimStartAux pat f₂ s := by
  intro f₁
  induction f₁ with
  | zero =>
    intro f₂ s h1 _
    have hs : s = [] := List.eq_nil_of_length_eq_zero (Nat.le_zero.mp h1)
    subst hs
    rw [trimStartAux_nil, trimStartAux_nil]
  | succ f ih =>
    intro f₂ s h1 h2
    by_cases h : pat ≠ [] ∧ pat.isPrefixOf s
    · have hs : s ≠ [] := by
        rintro rfl
        exact h.1 (by simpa [List.isPrefixOf_iff_prefix] using h.2)
      have hslen : 0 < s.length := List.length_pos.mpr hs
      obtain ⟨g, rfl⟩ : ∃ g, f₂ = g + 1 := ⟨f₂ - 1, by omega⟩
      have hpat : 0 < pat.length := List.length_pos.mpr h.1
      simp only [trimStartAux, if_pos h]
      exact ih g (s.drop pat.length) (by simp [List.length_drop]; omega)
        (by simp [List.length_drop]; omega)
    · cases f₂ with
      | zero =>
        have hs : s = [] := List.eq_nil_of_length_eq_zero (Nat.le_zero.mp h2)
        subst hs
        rw [trimStartAux_nil]
        rfl
      | succ g => simp only [trimStartAux]; rw [if_neg h, if_neg h]

theorem stripWhile_eq_trimStartAux (pat : List Char) :
    ∀ (f : Nat) (s : List Char), stripWhile pat f s = trimStartAux pat f s := by
  intro f
  induction f with
  | zero => intro s; rfl
  | succ f ih =>
    intro s
    by_cases h : pat ≠ [] ∧ pat.isPrefixOf s
    · simp only [stripWhile, trimStartAux]
      rw [if_pos ⟨h.2, h.1⟩, if_pos h, ih]
    · have h' : ¬((pat.isPrefixOf s : Prop) ∧ pat ≠ []) := fun hc => h ⟨hc.2, hc.1⟩
      simp only [stripWhile, trimStartAux]
      rw [if_neg h', if_neg h]

theorem length_trimStartAux_le (pat : List Char) :
    ∀ (f : Nat) (s : List Char), (trimStartAux pat f s).length ≤ s.length := by
  intro f
  induction f with
  | zero => intro s; exact Nat.le_refl _
  | succ f ih =>
    intro s
    by_cases h : pat ≠ [] ∧ pat.isPrefixOf s
    · simp only [trimStartAux, if_pos h]
      exact Nat.le_trans (ih (s.drop pat.length)) (by simp [List.length_drop])
    · simp only [trimStartAux]
      rw [if_neg h]

theorem length_dropWhile_le (p : Char → Bool) (l : List Char) :
    (l.dropWhile p).length ≤ l.length := by
  obtain ⟨t, ht⟩ := exists_append_dropWhile p l
  calc (l.dropWhile p).length ≤ t.length + (l.dropWhile p).length := Nat.le_add_left _ _
    _ = l.length := by rw [← List.length_append, ht]

theorem length_trimChars_le (l : List Char) : (trimChars l).length ≤ l.length := by
  unfold trimChars dropEndWhile
  calc ((l.dropWhile Char.isWhitespace).reverse.dropWhile Char.isWhitespace).reverse.length
      = ((l.dropWhile Char.isWhitespace).reverse.dropWhile Char.isWhitespace).length := by
        rw [List.length_reverse]
    _ ≤ (l.dropWhile Char.isWhitespace).reverse.length := length_dropWhile_le _ _
    _ = (l.dropWhile Char.isWhitespace).length := by rw [List.length_reverse]
    _ ≤ l.length := length_dropWhile_le _ _

/-! ### C3 — normalizer idempotence -/

/-- C3 counterexample: the claim `normalize(normalize(x)) == normalize(x)`
for every input fails at `"www.http://example.com"`, whose first
normalization strips `www.` and thereby exposes a scheme prefix that only a
second pass removes. -/
theorem C3_counterexample :
    normalize_domain (normalize_domain "www.http://example.com") ≠
      normalize_domain "www.http://example.com" := by decide

/-- C3 amended: normalization is idempotent on every input whose normalized
form carries no leading/trailing whitespace and no leading `http://`,
`https://` or `www.` (stripping can otherwise expose a new strippable
prefix); and scheme/`www.` stripping is case-insensitive,
e.g. `normalize("HTTP://WWW.EXAMPLE.COM/") = "example.com"`. -/
theorem C3_normalize_idempotent_amended :
    (∀ x : String,
      trimChars (normalize_domain x).toList = (normalize_domain x).toList →
      ("http://".toList).isPrefixOf (normalize_domain x).toList = false →
      ("https://".toList).isPrefixOf (normalize_domain x).toList = false →
      ("www.".toList).isPrefixOf (normalize_domain x).toList = false →
      normalize_domain (normalize_domain x) = normalize_domain x) ∧
    normalize_domain "HTTP://WWW.EXAMPLE.COM/" = "example.com" := by
  constructor
  · intro x h0 h1 h2 h3
    have hfix : ((normalize_domain x).toList).map rustToLower =
        (normalize_domain x).toList :=
      map_rustToLower_fixed (normalize_chars_fixed x)
    have hslash : dropEndWhile (fun c => c == '/') (normalize_domain x).toList =
        (normalize_domain x).toList := by
      rw [normalize_toList x, dropEndWhile_idem, ← normalize_toList x]
    calc normalize_domain (normalize_domain x)
        = String.mk
            (dropEndWhile (fun c => c == '/')
              (trimStartMatchesList "www.".toList
                (trimStartMatchesList "https://".toList
                  (trimStartMatchesList "http://".toList
                    ((trimChars (normalize_domain x).toList).map rustToLower))))) := rfl
      _ = normalize_domain x := by
          rw [h0, hfix, trimStart_eq_of_not _ _ h1, trimStart_eq_of_not _ _ h2,
            trimStart_eq_of_not _ _ h3, hslash, mk_toList]
  · decide

/-- C3 witness: a concrete already-normalized input on which the amended
idempotence theorem applies. -/
theorem C3_witness :
    normalize_domain (normalize_domain "https://www.example.com/") =
      normalize_domain "https://www.example.com/" :=
  C3_normalize_idempotent_amended.1 "https://www.example.com/"
    (by decide) (by decide) (by decide) (by decide)

/-! ### C7 — normalizer transform list -/

/-- C7 counterexample: the claim that each prefix/suffix is removed exactly
once fails at `"example.com//"`: the code strips every trailing slash and
returns `"example.com"`, while one-occurrence stripping would return
`"example.com/"`. -/
theorem C7_counterexample :
    normalize_domain "example.com//" ≠ normalize_domain_claimed "example.com//" ∧
    normalize_domain "example.com//" = "example.com" ∧
    normalize_domain_claimed "example.com//" = "example.com/" := by
  refine ⟨by decide, by decide, by decide⟩

/-- C7 amended: for every input string the normalizer applies exactly these
transforms in order — trim whitespace, lowercase, repeatedly strip a leading
`http://`, then repeatedly strip a leading `https://`, then repeatedly strip
a leading `www.`, then strip all trailing `/` — and performs no other
change. -/
theorem C7_normalize_transforms_amended :
    ∀ x : String, normalize_domain x = normalize_domain_spec x := by
  intro x
  have l1 : ((trimChars x.toList).map rustToLower).length ≤ x.toList.length := by
    rw [List.length_map]
    exact length_trimChars_le _
  have e1 : stripWhile "http://".toList x.toList.length
      ((trimChars x.toList).map rustToLower) =
      trimStartMatchesList "http://".toList ((trimChars x.toList).map rustToLower) := by
    rw [stripWhile_eq_trimStartAux, trimStartMatchesList]
    exact trimStartAux_fuel_inv _ _ _ _ l1 (Nat.le_refl _)
  have l2 : (trimStartMatchesList "http://".toList
      ((trimChars x.toList).map rustToLower)).length ≤ x.toList.length :=
    Nat.le_trans (length_trimStartAux_le _ _ _) l1
  have e2 : stripWhile "https://".toList x.toList.length
      (trimStartMatchesList "http://".toList ((trimChars x.toList).map rustToLower)) =
      trimStartMatchesList "https://".toList
        (trimStartMatchesList "http://".toList ((trimChars x.toList).map rustToLower)) := by
    rw [stripWhile_eq_trimStartAux, trimStartMatchesList]
    exact trimStartAux_fuel_inv _ _ _ _ l2 (Nat.le_refl _)
  have l3 : (trimStartMatchesList "https://".toList
      (trimStartMatchesList "http://".toList
        ((trimChars x.toList).map rustToLower))).length ≤ x.toList.length :=
    Nat.le_trans (length_trimStartAux_le _ _ _) l2
  have e3 : stripWhile "www.".toList x.toList.length
      (trimStartMatchesList "https://".toList
        (trimStartMatchesList "http://".toList ((trimChars x.toList).map rustToLower))) =
      trimStartMatchesList "www.".toList
        (trimStartMatchesList "https://".toList
          (trimStartMatchesList "http://".toList
            ((trimChars x.toList).map rustToLower))) := by
    rw [stripWhile_eq_trimStartAux, trimStartMatchesList]
    exact trimStartAux_fuel_inv _ _ _ _ l3 (Nat.le_refl _)
  show String.mk _ = String.mk _
  rw [e1, e2, e3]

/-! ### C5 — SOA parsing -/

/-- C5 counterexample: the claim that exactly seven whitespace tokens are
required fails on an eight-token SOA data text, which still yields an SOA
record (the code checks `parts.len() >= 7`). -/
theorem C5_counterexample :
    parse_soa_data "ns1.example.com admin.example.com 1 2 3 4 5 extra" ≠ none := by
  decide

/-- C5 amended: SOA parsing requires at least 7 whitespace-separated tokens
(tokens beyond the seventh are ignored); fewer than 7 tokens yields no SOA
record, and among the numeric tokens 3–7 any token that fails to parse as a
number defaults to 0 instead of discarding the SOA record. -/
theorem C5_soa_parsing_amended :
    ∀ soa_data : String,
      ((splitWhitespace soa_data).length < 7 → parse_soa_data soa_data = none) ∧
      ((splitWhitespace soa_data).length ≥ 7 →
        ∃ r, parse_soa_data soa_data = some r ∧
          r.primary_ns = (splitWhitespace soa_data).getD 0 "" ∧
          r.responsible_party = (splitWhitespace soa_data).getD 1 "" ∧
          (rustParseU32 ((splitWhitespace soa_data).getD 2 "") = none → r.serial = 0) ∧
          (rustParseI32 ((splitWhitespace soa_data).getD 3 "") = none → r.refresh = 0) ∧
          (rustParseI32 ((splitWhitespace soa_data).getD 4 "") = none → r.retry = 0) ∧
          (rustParseI32 ((splitWhitespace soa_data).getD 5 "") = none → r.expire = 0) ∧
          (rustParseU32 ((splitWhitespace soa_data).getD 6 "") = none → r.minimum = 0)) := by
  intro soa_data
  constructor
  · intro h
    rw [parse_soa_data, if_neg (by omega)]
  · intro h
    refine ⟨_, by rw [parse_soa_data, if_pos h], rfl, rfl, ?_, ?_, ?_, ?_, ?_⟩ <;>
      (intro hp; simp only [List.getD, List.get?_eq_getElem?] at hp; simp [hp])

/-- C5 witness: a two-token text yields no SOA record, and a seven-token
text with non-numeric numeric fields yields a record whose serial defaults
to zero. -/
theorem C5_witness :
    parse_soa_data "ns1.example.com admin" = none ∧
    ∃ r, parse_soa_data "ns1.example.com admin x y z w v" = some r ∧
      r.serial = 0 ∧ r.refresh = 0 := by
  constructor
  · exact (C5_soa_parsing_amended "ns1.example.com admin").1 (by decide)
  · obtain ⟨r, hr, _, _, hserial, hrefresh, _⟩ :=
      (C5_soa_parsing_amended "ns1.example.com admin x y z w v").2 (by decide)
    exact ⟨r, hr, hserial (by decide), hrefresh (by decide)⟩

/-! ### C6 — WHOIS fallback to the command-line client -/

/-- C6: whenever the RDAP lookup fails and the command-line WHOIS process
runs successfully, the resulting record has `rdap_available = false` and its
raw payload is exactly the text captured from the process's standard
output. -/
theorem C6_whois_fallback :
    ∀ (domain e stdout : String) (serialize : RdapDomain → String),
      ∃ w, whois_lookup domain (.error e) (.ok stdout) serialize = .ok w ∧
        w.rdap_available = false ∧ w.raw_data = stdout := by
  intro domain e stdout serialize
  exact ⟨_, rfl, rfl, rfl⟩

/-! ### C9 — RDAP creation-date extraction -/

theorem find_event_no_registration (events : List RdapEvent)
    (h : ∀ e ∈ events, e.event_action ≠ some "registration") :
    (events.find? fun e =>
        e.event_action == some "registration"
          || e.event_action == some "last changed") =
      events.find? fun e => e.event_action == some "last changed" := by
  induction events with
  | nil => rfl
  | cons e rest ih =>
    have hne : (e.event_action == some "registration") = false := by
      rw [beq_eq_false_iff_ne]
      exact h e (List.mem_cons_self e rest)
    simp only [List.find?, hne, Bool.false_or]
    cases hlc : (e.event_action == some "last changed")
    · simp only [hlc]
      exact ih fun x hx => h x (List.mem_cons_of_mem e hx)
    · simp only [hlc]

/-- C9: `extract_creation_date` returns the event date of the first RDAP
event whose action is exactly `registration` or exactly `last changed`;
in a document with no `registration` event the reported creation date is
the date of the first `last changed` event; and this value is the
`creation_date` the WHOIS chain and the age calculation report when RDAP
succeeds. -/
theorem C9_creation_date :
    (∀ (d : RdapDomain) (events : List RdapEvent), d.events = some events →
      extract_creation_date d =
        (events.find? fun e =>
          e.event_action == some "registration"
            || e.event_action == some "last changed").bind
          fun e => e.event_date) ∧
    (∀ (d : RdapDomain) (events : List RdapEvent), d.events = some events →
      (∀ e ∈ events, e.event_action ≠ some "registration") →
      extract_creation_date d =
        (events.find? fun e => e.event_action == some "last changed").bind
          fun e => e.event_date) ∧
    (∀ (domain : String) (d : RdapDomain) (cmd : Except String String)
      (serialize : RdapDomain → String) (w : WhoisInfo),
      whois_lookup domain (.ok d) cmd serialize = .ok w →
      w.creation_date = extract_creation_date d) ∧
    (∀ (domain : String) (d : RdapDomain) (cmd : Except String String)
      (serialize : RdapDomain → String) (parse_age : String → Option Int)
      (a : DomainAge),
      check_age domain (.ok d) cmd serialize parse_age = .ok a →
      a.creation_date = extract_creation_date d) := by
  refine ⟨?_, ?_, ?_, ?_⟩
  · intro d events h
    simp [extract_creation_date, h]
  · intro d events h hno
    simp [extract_creation_date, h, find_event_no_registration events hno]
  · intro domain d cmd serialize w hw
    simp only [whois_lookup] at hw
    injection hw with hw
    rw [← hw]
  · intro domain d cmd serialize parse_age a ha
    simp only [check_age, whois_lookup] at ha
    injection ha with ha
    rw [← ha]

/-- C9 witness: a concrete RDAP document with no `registration` event but a
`last changed` event reports the last-changed date as creation date. -/
theorem C9_witness :
    extract_creation_date
      { object_class_name := none, handle := none, ldh_name := none
        status := none
        events := some
          [{ event_action := some "expiration", event_date := some "2030-01-01"
             event_actor := none },
           { event_action := some "last changed", event_date := some "2020-05-05"
             event_actor := none }]
        entities := none, nameservers := none } = some "2020-05-05" := by
  have h := C9_creation_date.2.1
    { object_class_name := none, handle := none, ldh_name := none
      status := none
      events := some
        [{ event_action := some "expiration", event_date := some "2030-01-01"
           event_actor := none },
         { event_action := some "last changed", event_date := some "2020-05-05"
           event_actor := none }]
      entities := none, nameservers := none }
    [{ event_action := some "expiration", event_date := some "2030-01-01"
       event_actor := none },
     { event_action := some "last changed", event_date := some "2020-05-05"
       event_actor := none }]
    rfl (by decide)
  rw [h]
  decide

/-! ### C1 — availability heuristic -/

/-- C1 counterexample: the claimed scenario "registrar present and at least
one A record implies `available == false`" fails when the raw WHOIS payload
also contains a not-found phrase: registrar `some`, one A record, raw
payload `"NOT FOUND"`, and the verdict is `available = true`. -/
theorem C1_counterexample :
    (check_availability_core "example.com"
        (.ok
          { domain := "example.com", registrar := some "Example Registrar"
            registrant := none, creation_date := none, expiry_date := none
            updated_date := none, name_servers := [], status := []
            raw_data := "NOT FOUND", rdap_available := false })
        (.ok
          { domain := "example.com", a_records := ["93.184.216.34"]
            aaaa_records := [], mx_records := [], txt_records := []
            ns_records := [], cname_records := [], soa_record := none })).available
      = true := by decide

/-- C1 amended: `check_availability` computes `whois_available` (raw payload
contains a not-found phrase or no registrar; `true` on WHOIS failure),
`dns_available` (A, AAAA, NS all empty; `true` on DNS failure), and
`available = whois_available OR dns_available`; a payload containing
`"No matching record"` with empty A/AAAA/NS gives `available = true` with
reason mentioning "no WHOIS or DNS records"; a registrar present, **a raw
payload containing none of the not-found phrases**, and at least one A
record give `available = false` with reason mentioning
"registered and active". -/
theorem C1_availability_amended :
    (∀ (domain : String) (wres : Except String WhoisInfo)
      (dres : Except String DnsLookupResult),
      (check_availability_core domain wres dres).whois_available =
        some (whoisAvailableSignal wres) ∧
      (check_availability_core domain wres dres).dns_available =
        some (dnsAvailableSignal dres) ∧
      (check_availability_core domain wres dres).available =
        (whoisAvailableSignal wres || dnsAvailableSignal dres)) ∧
    (∀ (domain : String) (info : WhoisInfo) (dinfo : DnsLookupResult),
      containsSub info.raw_data "No matching record" = true →
      dinfo.a_records = [] → dinfo.aaaa_records = [] → dinfo.ns_records = [] →
      (check_availability_core domain (.ok info) (.ok dinfo)).available = true ∧
      containsSub (check_availability_core domain (.ok info) (.ok dinfo)).reason
        "no WHOIS or DNS records" = true) ∧
    (∀ (domain : String) (info : WhoisInfo) (dinfo : DnsLookupResult),
      info.registrar.isSome = true →
      containsSub info.raw_data "No matching record" = false →
      containsSub info.raw_data "NOT FOUND" = false →
      containsSub info.raw_data "No Data Found" = false →
      containsSub info.raw_data "domain name not known" = false →
      dinfo.a_records ≠ [] →
      (check_availability_core domain (.ok info) (.ok dinfo)).available = false ∧
      containsSub (check_availability_core domain (.ok info) (.ok dinfo)).reason
        "registered and active" = true) := by
  refine ⟨fun domain wres dres => ⟨rfl, rfl, rfl⟩, ?_, ?_⟩
  · intro domain info dinfo h1 ha hb hc
    have hw : whoisAvailableSignal (.ok info) = true := by
      simp [whoisAvailableSignal, h1]
    have hd : dnsAvailableSignal (.ok dinfo) = true := by
      simp [dnsAvailableSignal, ha, hb, hc]
    constructor
    · show (whoisAvailableSignal (.ok info) || dnsAvailableSignal (.ok dinfo)) = true
      rw [hw, hd]
      rfl
    · show containsSub
        (if whoisAvailableSignal (.ok info) || dnsAvailableSignal (.ok dinfo) then
          if whoisAvailableSignal (.ok info) && dnsAvailableSignal (.ok dinfo) then
            "Domain appears to be completely available (no WHOIS or DNS records)"
          else if whoisAvailableSignal (.ok info) then
            "Domain has no WHOIS record but has DNS entries"
          else "Domain has WHOIS record but no DNS entries"
        else "Domain is registered and active") "no WHOIS or DNS records" = true
      rw [hw, hd]
      decide
  · intro domain info dinfo hreg h1 h2 h3 h4 hne
    obtain ⟨r, hr⟩ := Option.isSome_iff_exists.mp hreg
    have hw : whoisAvailableSignal (.ok info) = false := by
      simp [whoisAvailableSignal, h1, h2, h3, h4, hr]
    have ha : dinfo.a_records.isEmpty = false := by
      cases hgl : dinfo.a_records.isEmpty
      · rfl
      · exact absurd (by simpa [List.isEmpty_iff] using hgl) hne
    have hd : dnsAvailableSignal (.ok dinfo) = false := by
      simp [dnsAvailableSignal, ha]
    constructor
    · show (whoisAvailableSignal (.ok info) || dnsAvailableSignal (.ok dinfo)) = false
      rw [hw, hd]
      rfl
    · show containsSub
        (if whoisAvailableSignal (.ok info) || dnsAvailableSignal (.ok dinfo) then
          if whoisAvailableSignal (.ok info) && dnsAvailableSignal (.ok dinfo) then
            "Domain appears to be completely available (no WHOIS or DNS records)"
          else if whoisAvailableSignal (.ok info) then
            "Domain has no WHOIS record but has DNS entries"
          else "Domain has WHOIS record but no DNS entries"
        else "Domain is registered and active") "registered and active" = true
      rw [hw, hd]
      decide

/-- C1 witness: the amended theorem applied to two concrete scenarios —
a not-found payload with no DNS records, and a clean registered payload
with an A record. -/
theorem C1_witness :
    (check_availability_core "example.com"
        (.ok
          { domain := "example.com", registrar := none, registrant := none
            creation_date := none, expiry_date := none, updated_date := none
            name_servers := [], status := []
            raw_data := "No matching record for example.com"
            rdap_available := false })
        (.ok
          { domain := "example.com", a_records := [], aaaa_records := []
            mx_records := [], txt_records := [], ns_records := []
            cname_records := [], soa_record := none })).available = true ∧
    (check_availability_core "example.com"
        (.ok
          { domain := "example.com", registrar := some "Example Registrar"
            registrant := none, creation_date := none, expiry_date := none
            updated_date := none, name_servers := [], status := []
            raw_data := "Domain Name: EXAMPLE.COM", rdap_available := true })
        (.ok
          { domain := "example.com", a_records := ["93.184.216.34"]
            aaaa_records := [], mx_records := [], txt_records := []
            ns_records := [], cname_records := [], soa_record := none })).available
      = false := by
  constructor
  · exact (C1_availability_amended.2.1 "example.com"
      { domain := "example.com", registrar := none, registrant := none
        creation_date := none, expiry_date := none, updated_date := none
        name_servers := [], status := []
        raw_data := "No matching record for example.com"
        rdap_available := false }
      { domain := "example.com", a_records := [], aaaa_records := []
        mx_records := [], txt_records := [], ns_records := []
        cname_records := [], soa_record := none }
      (by decide) rfl rfl rfl).1
  · exact (C1_availability_amended.2.2 "example.com"
      { domain := "example.com", registrar := some "Example Registrar"
        registrant := none, creation_date := none, expiry_date := none
        updated_date := none, name_servers := [], status := []
        raw_data := "Domain Name: EXAMPLE.COM", rdap_available := true }
      { domain := "example.com", a_records := ["93.184.216.34"]
        aaaa_records := [], mx_records := [], txt_records := []
        ns_records := [], cname_records := [], soa_record := none }
      (by decide) (by decide) (by decide) (by decide) (by decide)
      (by decide)).1

/-! ### C4 — bulk checker -/

theorem bulk_collect_length (pairs : List (String × Except String DomainAvailability)) :
    (bulk_collect pairs).1.length = pairs.length := by
  induction pairs with
  | nil => rfl
  | cons pr rest ih =>
    obtain ⟨domain, result⟩ := pr
    cases result <;> simp [bulk_collect, ih]

theorem bulk_collect_counts (pairs : List (String × Except String DomainAvailability)) :
    (bulk_collect pairs).2.1 + (bulk_collect pairs).2.2.1 + (bulk_collect pairs).2.2.2 =
      pairs.length := by
  induction pairs with
  | nil => rfl
  | cons pr rest ih =>
    obtain ⟨domain, result⟩ := pr
    cases result with
    | error e => simp [bulk_collect]; omega
    | ok v =>
      by_cases hav : v.available <;> simp [bulk_collect, hav] <;> omega

theorem bulk_collect_errors (pairs : List (String × Except String DomainAvailability)) :
    (bulk_collect pairs).2.2.2 =
      pairs.countP fun pr => match pr.2 with | .error _ => true | .ok _ => false := by
  induction pairs with
  | nil => rfl
  | cons pr rest ih =>
    obtain ⟨domain, result⟩ := pr
    cases result <;> simp [bulk_collect, List.countP_cons, ih]

theorem bulk_collect_get (pairs : List (String × Except String DomainAvailability)) :
    ∀ i : Nat, (bulk_collect pairs).1[i]? =
      (pairs[i]?).map fun pr : String × Except String DomainAvailability =>
        expectedVerdict pr.1 pr.2 := by
  induction pairs with
  | nil => intro i; rfl
  | cons pr rest ih =>
    obtain ⟨domain, result⟩ := pr
    intro i
    cases i with
    | zero => cases result <;> simp [bulk_collect, expectedVerdict]
    | succ j => cases result <;> simpa [bulk_collect] using ih j

theorem countP_zip (p : Except String DomainAvailability → Bool) :
    ∀ (ds : List String) (rs : List (Except String DomainAvailability)),
      rs.length = ds.length →
      (ds.zip rs).countP (fun pr => p pr.2) = rs.countP p := by
  intro ds
  induction ds with
  | nil =>
    intro rs h
    cases rs with
    | nil => rfl
    | cons r rs => simp at h
  | cons d ds ih =>
    intro rs h
    cases rs with
    | nil => simp at h
    | cons r rs =>
      simp only [List.zip_cons_cons, List.countP_cons]
      rw [ih rs (by simpa using h)]

theorem zip_getElem (ds : List String) :
    ∀ (rs : List (Except String DomainAvailability)) (i : Nat),
      rs.length = ds.length → i < ds.length →
      (ds.zip rs)[i]? = some (ds.getD i "", rs.getD i (.error "")) := by
  induction ds with
  | nil => intro rs i _ hi; simp at hi
  | cons d ds ih =>
    intro rs i h hi
    cases rs with
    | nil => simp at h
    | cons r rs =>
      cases i with
      | zero => simp [List.zip_cons_cons, List.getD]
      | succ j =>
        simp only [List.zip_cons_cons, List.getElem?_cons_succ, List.getD]
        have := ih rs j (by simpa using h) (by simpa using hi)
        simpa [List.getD] using this

/-- C4: `bulk_check` returns exactly N verdicts aligned 1:1 with the input
order (the i-th verdict is the computed one on success and the error
placeholder — `available = false`, absent sub-signals — on failure), the
summary has `total = N`, `available + taken + errors = N`, and `errors`
equals the number of failed per-domain checks. -/
theorem C4_bulk_check :
    ∀ (domains : List String) (results : List (Except String DomainAvailability)),
      results.length = domains.length →
      (bulk_check domains results).domains.length = domains.length ∧
      (bulk_check domains results).summary.total = domains.length ∧
      (bulk_check domains results).summary.available +
          (bulk_check domains results).summary.taken +
          (bulk_check domains results).summary.errors = domains.length ∧
      (bulk_check domains results).summary.errors = countErrors results ∧
      (∀ dstr : String, (errorPlaceholder dstr).available = false ∧
        (errorPlaceholder dstr).whois_available = none ∧
        (errorPlaceholder dstr).dns_available = none) ∧
      (∀ i, i < domains.length →
        (bulk_check domains results).domains[i]? =
          some (expectedVerdict (domains.getD i "") (results.getD i (.error "")))) := by
  intro domains results h
  have hzlen : (domains.zip results).length = domains.length := by
    rw [List.length_zip, h, Nat.min_self]
  refine ⟨?_, rfl, ?_, ?_, fun dstr => ⟨rfl, rfl, rfl⟩, ?_⟩
  · show (bulk_collect (domains.zip results)).1.length = domains.length
    rw [bulk_collect_length, hzlen]
  · show (bulk_collect (domains.zip results)).2.1 +
      (bulk_collect (domains.zip results)).2.2.1 +
      (bulk_collect (domains.zip results)).2.2.2 = domains.length
    rw [bulk_collect_counts, hzlen]
  · show (bulk_collect (domains.zip results)).2.2.2 = countErrors results
    rw [bulk_collect_errors, countErrors,
      countP_zip (fun r => match r with | .error _ => true | .ok _ => false) domains results h]
  · intro i hi
    show (bulk_collect (domains.zip results)).1[i]? = _
    rw [bulk_collect_get, zip_getElem domains results i h hi]
    rfl

/-- C4 witness: a three-domain batch with one failing check — three aligned
verdicts, `total = 3`, counters summing to 3, one error, and the failing
slot carrying the placeholder verdict. -/
theorem C4_witness :
    (bulk_check ["a.com", "b.com", "c.com"]
        [.ok
          { domain := "a.com", available := true, reason := "r1"
            whois_available := some true, dns_available := some true },
         .error "boom",
         .ok
          { domain := "c.com", available := false, reason := "r2"
            whois_available := some false, dns_available := some false }]).domains.length
      = 3 ∧
    (bulk_check ["a.com", "b.com", "c.com"]
        [.ok
          { domain := "a.com", available := true, reason := "r1"
            whois_available := some true, dns_available := some true },
         .error "boom",
         .ok
          { domain := "c.com", available := false, reason := "r2"
            whois_available := some false, dns_available := some false }]).summary.errors
      = countErrors
        [.ok
          { domain := "a.com", available := true, reason := "r1"
            whois_available := some true, dns_available := some true },
         .error "boom",
         .ok
          { domain := "c.com", available := false, reason := "r2"
            whois_available := some false, dns_available := some false }] ∧
    (bulk_check ["a.com", "b.com", "c.com"]
        [.ok
          { domain := "a.com", available := true, reason := "r1"
            whois_available := some true, dns_available := some true },
         .error "boom",
         .ok
          { domain := "c.com", available := false, reason := "r2"
            whois_available := some false, dns_available := some false }]).domains[1]?
      = some (expectedVerdict "b.com" (.error "boom")) := by
  have h := C4_bulk_check ["a.com", "b.com", "c.com"]
    [.ok
      { domain := "a.com", available := true, reason := "r1"
        whois_available := some true, dns_available := some true },
     .error "boom",
     .ok
      { domain := "c.com", available := false, reason := "r2"
        whois_available := some false, dns_available := some false }]
    (by decide)
  exact ⟨h.1, h.2.2.2.1, h.2.2.2.2.2 1 (by decide)⟩

/-! ### C8 — total degradation to Ok results -/

theorem bulk_collect_map_check (upstream : String → Upstream) :
    ∀ domains : List String,
      (bulk_collect (domains.zip
        (domains.map fun d => check_availability d (upstream d)))).2.2.2 = 0 ∧
      ∀ v ∈ (bulk_collect (domains.zip
        (domains.map fun d => check_availability d (upstream d)))).1,
        v.whois_available.isSome = true ∧ v.dns_available.isSome = true := by
  intro domains
  induction domains with
  | nil => exact ⟨rfl, by intro v hv; simp [bulk_collect] at hv⟩
  | cons d ds ih =>
    simp only [List.map_cons, List.zip_cons_cons]
    constructor
    · simpa [bulk_collect, check_availability] using ih.1
    · intro v hv
      simp only [bulk_collect, check_availability] at hv
      rcases List.mem_cons.mp hv with hv | hv
      · subst hv; exact ⟨rfl, rfl⟩
      · exact ih.2 v hv

/-- C8: the WHOIS lookup, the DNS lookup and `check_availability` return a
successful result for every input and every upstream behaviour; every
verdict carries both sub-signals; consequently `bulk_check` over real
checks counts zero errors. -/
theorem C8_always_ok :
    (∀ (domain : String) (rdap_result : Except String RdapDomain)
      (cmd_output : Except String String) (serialize : RdapDomain → String),
      ∃ w, whois_lookup domain rdap_result cmd_output serialize = .ok w) ∧
    (∀ (domain : String)
      (a aaaa mx txt ns cname soa : Except String (List (String × Option Nat))),
      ∃ r, dns_lookup domain a aaaa mx txt ns cname soa = .ok r) ∧
    (∀ (domain : String) (u : Upstream),
      ∃ v, check_availability domain u = .ok v ∧
        v.whois_available.isSome = true ∧ v.dns_available.isSome = true) ∧
    (∀ (domains : List String) (upstream : String → Upstream),
      (bulk_check domains
        (domains.map fun d => check_availability d (upstream d))).summary.errors = 0 ∧
      ∀ v ∈ (bulk_check domains
          (domains.map fun d => check_availability d (upstream d))).domains,
        v.whois_available.isSome = true ∧ v.dns_available.isSome = true) := by
  refine ⟨?_, ?_, ?_, ?_⟩
  · intro domain rdap_result cmd_output serialize
    cases rdap_result with
    | ok rdap_domain => exact ⟨_, rfl⟩
    | error e =>
      cases cmd_output with
      | ok stdout => exact ⟨_, rfl⟩
      | error e2 => exact ⟨_, rfl⟩
  · intro domain a aaaa mx txt ns cname soa
    exact ⟨_, rfl⟩
  · intro domain u
    exact ⟨_, rfl, rfl, rfl⟩
  · intro domains upstream
    exact ⟨(bulk_collect_map_check upstream domains).1,
      (bulk_collect_map_check upstream domains).2⟩

/-! ### C2 — expired-domain aggregator invariants -/

theorem process_source_cons_seen (acc : List ExpiredDomain) (seen : List String)
    (d : ExpiredDomain) (rest : List ExpiredDomain)
    (hc : seen.contains d.domain = true) :
    process_source acc seen (d :: rest) = process_source acc seen rest := by
  simp only [process_source]
  rw [if_pos hc]

theorem process_source_cons_stop (acc : List ExpiredDomain) (seen : List String)
    (d : ExpiredDomain) (rest : List ExpiredDomain)
    (hc : seen.contains d.domain = false) (hlen : (acc ++ [d]).length ≥ 10) :
    process_source acc seen (d :: rest) = (acc ++ [d], d.domain :: seen) := by
  simp only [process_source]
  rw [if_neg (fun h => Bool.noConfusion (hc ▸ h)), if_pos hlen]

theorem process_source_cons_go (acc : List ExpiredDomain) (seen : List String)
    (d : ExpiredDomain) (rest : List ExpiredDomain)
    (hc : seen.contains d.domain = false) (hlen : ¬(acc ++ [d]).length ≥ 10) :
    process_source acc seen (d :: rest) =
      process_source (acc ++ [d]) (d.domain :: seen) rest := by
  simp only [process_source]
  rw [if_neg (fun h => Bool.noConfusion (hc ▸ h)), if_neg hlen]

theorem not_mem_of_contains_false {seen : List String} {a : String}
    (hc : seen.contains a = false) : a ∉ seen := by
  intro hmem
  have h2 : seen.contains a = true := List.elem_iff.mpr hmem
  rw [h2] at hc
  cases hc

theorem process_source_nodup :
    ∀ (items acc : List ExpiredDomain) (seen : List String),
      ((acc.map fun d => d.domain).Nodup) → (∀ d ∈ acc, d.domain ∈ seen) →
      (((process_source acc seen items).1.map fun d => d.domain).Nodup) ∧
      (∀ d ∈ (process_source acc seen items).1,
        d.domain ∈ (process_source acc seen items).2) := by
  intro items
  induction items with
  | nil => intro acc seen hnd hcl; exact ⟨hnd, hcl⟩
  | cons d rest ih =>
    intro acc seen hnd hcl
    cases hc : seen.contains d.domain with
    | true => rw [process_source_cons_seen acc seen d rest hc]; exact ih acc seen hnd hcl
    | false =>
      have hnotin : d.domain ∉ seen := not_mem_of_contains_false hc
      have hnd2 : ((acc ++ [d]).map fun x => x.domain).Nodup := by
        rw [List.map_append]
        refine List.Nodup.append hnd (List.nodup_singleton _) ?_
        intro x hx hy
        simp only [List.map_cons, List.map_nil, List.mem_singleton] at hy
        subst hy
        obtain ⟨y, hy1, hy2⟩ := List.mem_map.mp hx
        exact hnotin (hy2 ▸ hcl y hy1)
      have hcl2 : ∀ x ∈ acc ++ [d], x.domain ∈ d.domain :: seen := by
        intro x hx
        rcases List.mem_append.mp hx with hx | hx
        · exact List.mem_cons_of_mem _ (hcl x hx)
        · simp only [List.mem_singleton] at hx
          subst hx
          exact List.mem_cons_self _ _
      by_cases hlen : (acc ++ [d]).length ≥ 10
      · rw [process_source_cons_stop acc seen d rest hc hlen]
        exact ⟨hnd2, hcl2⟩
      · rw [process_source_cons_go acc seen d rest hc hlen]
        exact ih (acc ++ [d]) (d.domain :: seen) hnd2 hcl2

theorem process_source_len :
    ∀ (items acc : List ExpiredDomain) (seen : List String),
      acc.length < 10 → (process_source acc seen items).1.length ≤ 10 := by
  intro items
  induction items with
  | nil => intro acc seen h; exact Nat.le_of_lt h
  | cons d rest ih =>
    intro acc seen h
    cases hc : seen.contains d.domain with
    | true => rw [process_source_cons_seen acc seen d rest hc]; exact ih acc seen h
    | false =>
      by_cases hlen : (acc ++ [d]).length ≥ 10
      · rw [process_source_cons_stop acc seen d rest hc hlen]
        show (acc ++ [d]).length ≤ 10
        rw [List.length_append]
        simp only [List.length_singleton]
        omega
      · rw [process_source_cons_go acc seen d rest hc hlen]
        exact ih (acc ++ [d]) (d.domain :: seen) (by omega)

theorem process_source_mem :
    ∀ (items acc : List ExpiredDomain) (seen : List String) (d : ExpiredDomain),
      d ∈ (process_source acc seen items).1 → d ∈ acc ∨ d ∈ items := by
  intro items
  induction items with
  | nil => intro acc seen d hd; exact Or.inl hd
  | cons x rest ih =>
    intro acc seen d hd
    cases hc : seen.contains x.domain with
    | true =>
      rw [process_source_cons_seen acc seen x rest hc] at hd
      rcases ih acc seen d hd with h | h
      · exact Or.inl h
      · exact Or.inr (List.mem_cons_of_mem _ h)
    | false =>
      by_cases hlen : (acc ++ [x]).length ≥ 10
      · rw [process_source_cons_stop acc seen x rest hc hlen] at hd
        rcases List.mem_append.mp hd with h | h
        · exact Or.inl h
        · simp only [List.mem_singleton] at h
          exact Or.inr (h ▸ List.mem_cons_self _ _)
      · rw [process_source_cons_go acc seen x rest hc hlen] at hd
        rcases ih (acc ++ [x]) (x.domain :: seen) d hd with h | h
        · rcases List.mem_append.mp h with h | h
          · exact Or.inl h
          · simp only [List.mem_singleton] at h
            exact Or.inr (h ▸ List.mem_cons_self _ _)
        · exact Or.inr (List.mem_cons_of_mem _ h)

/-- C2: for every run of `search_expired_domains` (any source outcomes),
the returned list has no repeated domain string, its length never exceeds
10, and if the first source alone fills 10 deduplicated slots the remaining
three sources are never queried. -/
theorem C2_expired_aggregator :
    ∀ s1 s2 s3 s4 : Except String (List ExpiredDomain),
      (((search_expired_domains s1 s2 s3 s4).1.map fun d => d.domain).Nodup) ∧
      (search_expired_domains s1 s2 s3 s4).1.length ≤ 10 ∧
      ((process_source [] [] (source_items s1)).1.length ≥ 10 →
        (search_expired_domains s1 s2 s3 s4).2.1 = false ∧
        (search_expired_domains s1 s2 s3 s4).2.2.1 = false ∧
        (search_expired_domains s1 s2 s3 s4).2.2.2 = false) := by
  intro s1 s2 s3 s4
  have h1 := process_source_nodup (source_items s1) [] []
    (by simp) (by intro d hd; simp at hd)
  have l1 := process_source_len (source_items s1) [] [] (by simp)
  by_cases hc1 : (process_source [] [] (source_items s1)).1.length < 10
  · have h2 := process_source_nodup (source_items s2)
      (process_source [] [] (source_items s1)).1
      (process_source [] [] (source_items s1)).2 h1.1 h1.2
    have l2 := process_source_len (source_items s2)
      (process_source [] [] (source_items s1)).1
      (process_source [] [] (source_items s1)).2 hc1
    by_cases hc2 : (process_source (process_source [] [] (source_items s1)).1
        (process_source [] [] (source_items s1)).2 (source_items s2)).1.length < 10
    · have h3 := process_source_nodup (source_items s3) _ _ h2.1 h2.2
      have l3 := process_source_len (source_items s3)
        (process_source (process_source [] [] (source_items s1)).1
          (process_source [] [] (source_items s1)).2 (source_items s2)).1
        (process_source (process_source [] [] (source_items s1)).1
          (process_source [] [] (source_items s1)).2 (source_items s2)).2 hc2
      by_cases hc3 : (process_source
          (process_source (process_source [] [] (source_items s1)).1
            (process_source [] [] (source_items s1)).2 (source_items s2)).1
          (process_source (process_source [] [] (source_items s1)).1
            (process_source [] [] (source_items s1)).2 (source_items s2)).2
          (source_items s3)).1.length < 10
      · have h4 := process_source_nodup (source_items s4) _ _ h3.1 h3.2
        have l4 := process_source_len (source_items s4)
          (process_source
            (process_source (process_source [] [] (source_items s1)).1
              (process_source [] [] (source_items s1)).2 (source_items s2)).1
            (process_source (process_source [] [] (source_items s1)).1
              (process_source [] [] (source_items s1)).2 (source_items s2)).2
            (source_items s3)).1
          (process_source
            (process_source (process_source [] [] (source_items s1)).1
              (process_source [] [] (source_items s1)).2 (source_items s2)).1
            (process_source (process_source [] [] (source_items s1)).1
              (process_source [] [] (source_items s1)).2 (source_items s2)).2
            (source_items s3)).2 hc3
        refine ⟨?_, ?_, ?_⟩
        · simpa [search_expired_domains, hc1, hc2, hc3] using h4.1
        · simpa [search_expired_domains, hc1, hc2, hc3] using l4
        · intro habs; omega
      · refine ⟨?_, ?_, ?_⟩
        · simpa [search_expired_domains, hc1, hc2, hc3] using h3.1
        · simpa [search_expired_domains, hc1, hc2, hc3] using l3
        · intro habs; omega
    · refine ⟨?_, ?_, ?_⟩
      · simpa [search_expired_domains, hc1, hc2] using h2.1
      · simpa [search_expired_domains, hc1, hc2] using l2
      · intro habs; omega
  · refine ⟨?_, ?_, ?_⟩
    · simpa [search_expired_domains, hc1] using h1.1
    · simpa [search_expired_domains, hc1] using l1
    · intro _
      refine ⟨?_, ?_, ?_⟩ <;> simp [search_expired_domains, hc1]

/-- C2 witness: with a first source returning ten distinct matches, the
aggregator reports sources 2–4 as not queried. -/
theorem C2_witness :
    (search_expired_domains
        (.ok
          ([{ domain := "d0.com", status := "expired", source := "t", created := none
              updated := none, end_time := none, appraisal := none
              starting_price := none, has_dns := none },
            { domain := "d1.com", status := "expired", source := "t", created := none
              updated := none, end_time := none, appraisal := none
              starting_price := none, has_dns := none },
            { domain := "d2.com", status := "expired", source := "t", created := none
              updated := none, end_time := none, appraisal := none
              starting_price := none, has_dns := none },
            { domain := "d3.com", status := "expired", source := "t", created := none
              updated := none, end_time := none, appraisal := none
              starting_price := none, has_dns := none },
            { domain := "d4.com", status := "expired", source := "t", created := none
              updated := none, end_time := none, appraisal := none
              starting_price := none, has_dns := none },
            { domain := "d5.com", status := "expired", source := "t", created := none
              updated := none, end_time := none, appraisal := none
              starting_price := none, has_dns := none },
            { domain := "d6.com", status := "expired", source := "t", created := none
              updated := none, end_time := none, appraisal := none
              starting_price := none, has_dns := none },
            { domain := "d7.com", status := "expired", source := "t", created := none
              updated := none, end_time := none, appraisal := none
              starting_price := none, has_dns := none },
            { domain := "d8.com", status := "expired", source := "t", created := none
              updated := none, end_time := none, appraisal := none
              starting_price := none, has_dns := none },
            { domain := "d9.com", status := "expired", source := "t", created := none
              updated := none, end_time := none, appraisal := none
              starting_price := none, has_dns := none }] : List ExpiredDomain))
        (.ok
          [{ domain := "other.com", status := "pending delete", source := "u"
             created := none, updated := none, end_time := none, appraisal := none
             starting_price := none, has_dns := none }])
        (.error "nope") (.ok [])).2.1 = false ∧
    (search_expired_domains
        (.ok
          ([{ domain := "d0.com", status := "expired", source := "t", created := none
              updated := none, end_time := none, appraisal := none
              starting_price := none, has_dns := none },
            { domain := "d1.com", status := "expired", source := "t", created := none
              updated := none, end_time := none, appraisal := none
              starting_price := none, has_dns := none },
            { domain := "d2.com", status := "expired", source := "t", created := none
              updated := none, end_time := none, appraisal := none
              starting_price := none, has_dns := none },
            { domain := "d3.com", status := "expired", source := "t", created := none
              updated := none, end_time := none, appraisal := none
              starting_price := none, has_dns := none },
            { domain := "d4.com", status := "expired", source := "t", created := none
              updated := none, end_time := none, appraisal := none
              starting_price := none, has_dns := none },
            { domain := "d5.com", status := "expired", source := "t", created := none
              updated := none, end_time := none, appraisal := none
              starting_price := none, has_dns := none },
            { domain := "d6.com", status := "expired", source := "t", created := none
              updated := none, end_time := none, appraisal := none
              starting_price := none, has_dns := none },
            { domain := "d7.com", status := "expired", source := "t", created := none
              updated := none, end_time := none, appraisal := none
              starting_price := none, has_dns := none },
            { domain := "d8.com", status := "expired", source := "t", created := none
              updated := none, end_time := none, appraisal := none
              starting_price := none, has_dns := none },
            { domain := "d9.com", status := "expired", source := "t", created := none
              updated := none, end_time := none, appraisal := none
              starting_price := none, has_dns := none }] : List ExpiredDomain))
        (.ok
          [{ domain := "other.com", status := "pending delete", source := "u"
             created := none, updated := none, end_time := none, appraisal := none
             starting_price := none, has_dns := none }])
        (.error "nope") (.ok [])).2.2.1 = false := by
  have h := (C2_expired_aggregator
    (.ok
      ([{ domain := "d0.com", status := "expired", source := "t", created := none
          updated := none, end_time := none, appraisal := none
          starting_price := none, has_dns := none },
        { domain := "d1.com", status := "expired", source := "t", created := none
          updated := none, end_time := none, appraisal := none
          starting_price := none, has_dns := none },
        { domain := "d2.com", status := "expired", source := "t", created := none
          updated := none, end_time := none, appraisal := none
          starting_price := none, has_dns := none },
        { domain := "d3.com", status := "expired", source := "t", created := none
          updated := none, end_time := none, appraisal := none
          starting_price := none, has_dns := none },
        { domain := "d4.com", status := "expired", source := "t", created := none
          updated := none, end_time := none, appraisal := none
          starting_price := none, has_dns := none },
        { domain := "d5.com", status := "expired", source := "t", created := none
          updated := none, end_time := none, appraisal := none
          starting_price := none, has_dns := none },
        { domain := "d6.com", status := "expired", source := "t", created := none
          updated := none, end_time := none, appraisal := none
          starting_price := none, has_dns := none },
        { domain := "d7.com", status := "expired", source := "t", created := none
          updated := none, end_time := none, appraisal := none
          starting_price := none, has_dns := none },
        { domain := "d8.com", status := "expired", source := "t", created := none
          updated := none, end_time := none, appraisal := none
          starting_price := none, has_dns := none },
        { domain := "d9.com", status := "expired", source := "t", created := none
          updated := none, end_time := none, appraisal := none
          starting_price := none, has_dns := none }] : List ExpiredDomain))
    (.ok
      [{ domain := "other.com", status := "pending delete", source := "u"
         created := none, updated := none, end_time := none, appraisal := none
         starting_price := none, has_dns := none }])
    (.error "nope") (.ok [])).2.2 (by decide)
  exact ⟨h.1, h.2.1⟩

/-! ### C10 — every aggregated domain contains a dot -/

theorem domainsdbLoop_dot (keyword tld : String) :
    ∀ (items : List DomainsDBDomain) (acc : List ExpiredDomain),
      (∀ d ∈ acc, strContainsChar d.domain '.' = true) →
      ∀ d ∈ domainsdbLoop keyword tld acc items, strContainsChar d.domain '.' = true := by
  intro items
  induction items with
  | nil => intro acc hacc d hd; exact hacc d hd
  | cons di rest ih =>
    intro acc hacc d hd
    simp only [domainsdbLoop] at hd
    split at hd
    · exact ih acc hacc d hd
    next domain_name heq =>
      split at hd
      next hdot =>
        split at hd
        next hm =>
          have hacc2 : ∀ entry : ExpiredDomain, entry.domain = domain_name →
              ∀ y ∈ acc ++ [entry], strContainsChar y.domain '.' = true := by
            intro entry he y hy
            rcases List.mem_append.mp hy with h | h
            · exact hacc y h
            · simp only [List.mem_singleton] at h
              subst h
              rw [he]
              exact hdot
          repeat' split at hd
          all_goals
            first
              | exact hacc2 _ rfl d hd
              | exact ih _ (hacc2 _ rfl) d hd
        next hm => exact ih acc hacc d hd
      next hdot => exact ih acc hacc d hd

theorem append_entry_dot {acc : List ExpiredDomain}
    (hacc : ∀ d ∈ acc, strContainsChar d.domain '.' = true)
    (entry : ExpiredDomain) (he : strContainsChar entry.domain '.' = true) :
    ∀ y ∈ acc ++ [entry], strContainsChar y.domain '.' = true := by
  intro y hy
  rcases List.mem_append.mp hy with h | h
  · exact hacc y h
  · simp only [List.mem_singleton] at h
    subst h
    exact he

set_option maxHeartbeats 1600000 in
theorem dynadotLoop_dot (keyword tld : String) :
    ∀ (lines : List String) (acc : List ExpiredDomain),
      (∀ d ∈ acc, strContainsChar d.domain '.' = true) →
      ∀ d ∈ dynadotLoop keyword tld acc lines, strContainsChar d.domain '.' = true := by
  intro lines
  induction lines with
  | nil => intro acc hacc d hd; exact hacc d hd
  | cons line rest ih =>
    intro acc hacc d hd
    simp only [dynadotLoop] at hd
    split at hd
    · exact ih acc hacc d hd
    split at hd
    next hlen2 =>
      split at hd
      next hdot =>
        split at hd
        next hm =>
          repeat' split at hd
          all_goals
            first
              | exact append_entry_dot hacc _ hdot d hd
              | exact ih _ (append_entry_dot hacc _ hdot) d hd
        next hm => exact ih acc hacc d hd
      next hdot => exact ih acc hacc d hd
    next hlen2 => exact ih acc hacc d hd

theorem namejetLoop_dot (keyword tld : String) :
    ∀ (lines : List String) (acc : List ExpiredDomain),
      (∀ d ∈ acc, strContainsChar d.domain '.' = true) →
      ∀ d ∈ namejetLoop keyword tld acc lines, strContainsChar d.domain '.' = true := by
  intro lines
  induction lines with
  | nil => intro acc hacc d hd; exact hacc d hd
  | cons line rest ih =>
    intro acc hacc d hd
    simp only [namejetLoop] at hd
    split at hd
    · exact ih acc hacc d hd
    next hskip =>
      split at hd
      next hcond =>
        simp only [Bool.and_eq_true] at hcond
        split at hd
        next hm =>
          repeat' split at hd
          all_goals
            first
              | exact append_entry_dot hacc _ hcond.1 d hd
              | exact ih _ (append_entry_dot hacc _ hcond.1) d hd
        next hm => exact ih acc hacc d hd
      next hcond => exact ih acc hacc d hd

theorem snapnamesLoop_dot (keyword tld : String) :
    ∀ (lines : List String) (acc : List ExpiredDomain),
      (∀ d ∈ acc, strContainsChar d.domain '.' = true) →
      ∀ d ∈ snapnamesLoop keyword tld acc lines, strContainsChar d.domain '.' = true := by
  intro lines
  induction lines with
  | nil => intro acc hacc d hd; exact hacc d hd
  | cons line rest ih =>
    intro acc hacc d hd
    simp only [snapnamesLoop] at hd
    split at hd
    · exact ih acc hacc d hd
    next hskip =>
      split at hd
      next hcond =>
        simp only [Bool.and_eq_true] at hcond
        split at hd
        next hm =>
          repeat' split at hd
          all_goals
            first
              | exact append_entry_dot hacc _ hcond.2 d hd
              | exact ih _ (append_entry_dot hacc _ hcond.2) d hd
        next hm => exact ih acc hacc d hd
      next hcond => exact ih acc hacc d hd

theorem nil_all_dot : ∀ y ∈ ([] : List ExpiredDomain), strContainsChar y.domain '.' = true :=
  fun y hy => absurd hy (List.not_mem_nil y)

theorem search_domainsdb_dot (keyword tld : String)
    (response : Except String (Option (List DomainsDBDomain))) :
    ∀ d ∈ source_items (search_domainsdb keyword tld response),
      strContainsChar d.domain '.' = true := by
  intro d hd
  cases response with
  | error e => exact absurd hd (List.not_mem_nil d)
  | ok data =>
    cases data with
    | none => exact absurd hd (List.not_mem_nil d)
    | some domains => exact domainsdbLoop_dot keyword tld domains [] nil_all_dot d hd

theorem search_dynadot_dot (keyword tld : String) (response : Except String String) :
    ∀ d ∈ source_items (search_dynadot keyword tld response),
      strContainsChar d.domain '.' = true := by
  intro d hd
  cases response with
  | error e => exact absurd hd (List.not_mem_nil d)
  | ok text =>
    exact dynadotLoop_dot keyword tld ((rustLines text).drop 1) [] nil_all_dot d hd

theorem search_namejet_dot (keyword tld : String) (f1 f2 : UrlFetch) :
    ∀ d ∈ source_items (search_namejet keyword tld f1 f2),
      strContainsChar d.domain '.' = true := by
  intro d hd
  cases f1 with
  | bodyErr e => exact absurd hd (List.not_mem_nil d)
  | fetchFail =>
    cases f2 with
    | bodyErr e => exact absurd hd (List.not_mem_nil d)
    | fetchFail => exact absurd hd (List.not_mem_nil d)
    | body t => exact namejetLoop_dot keyword tld (rustLines t) [] nil_all_dot d hd
  | body t =>
    by_cases hres : (namejetLoop keyword tld [] (rustLines t)).isEmpty
    · cases f2 with
      | bodyErr e =>
        have : source_items (search_namejet keyword tld (.body t) (.bodyErr e)) = [] := by
          simp [search_namejet, source_items, hres]
        rw [this] at hd
        exact absurd hd (List.not_mem_nil d)
      | fetchFail =>
        have hd2 : d ∈ namejetLoop keyword tld [] (rustLines t) := by
          simpa [search_namejet, source_items, hres] using hd
        exact namejetLoop_dot keyword tld (rustLines t) [] nil_all_dot d hd2
      | body t2 =>
        have hd2 : d ∈ namejetLoop keyword tld
            (namejetLoop keyword tld [] (rustLines t)) (rustLines t2) := by
          simpa [search_namejet, source_items, hres] using hd
        exact namejetLoop_dot keyword tld (rustLines t2) _
          (namejetLoop_dot keyword tld (rustLines t) [] nil_all_dot) d hd2
    · have hd2 : d ∈ namejetLoop keyword tld [] (rustLines t) := by
        simpa [search_namejet, source_items, hres] using hd
      exact namejetLoop_dot keyword tld (rustLines t) [] nil_all_dot d hd2

theorem search_snapnames_dot (keyword tld : String) (response : Except String String) :
    ∀ d ∈ source_items (search_snapnames keyword tld response),
      strContainsChar d.domain '.' = true := by
  intro d hd
  cases response with
  | error e => exact absurd hd (List.not_mem_nil d)
  | ok text =>
    exact snapnamesLoop_dot keyword tld ((rustLines text).drop 1) [] nil_all_dot d hd

theorem search_expired_mem (s1 s2 s3 s4 : Except String (List ExpiredDomain))
    (d : ExpiredDomain) :
    d ∈ (search_expired_domains s1 s2 s3 s4).1 →
      d ∈ source_items s1 ∨ d ∈ source_items s2 ∨ d ∈ source_items s3 ∨
        d ∈ source_items s4 := by
  intro hd
  have step1 : d ∈ (process_source [] [] (source_items s1)).1 → d ∈ source_items s1 :=
    fun h => (process_source_mem (source_items s1) [] [] d h).resolve_left
      (fun hx => absurd hx (List.not_mem_nil d))
  have step2 : d ∈ (process_source (process_source [] [] (source_items s1)).1
      (process_source [] [] (source_items s1)).2 (source_items s2)).1 →
      d ∈ source_items s1 ∨ d ∈ source_items s2 := by
    intro h
    rcases process_source_mem (source_items s2) _ _ d h with h | h
    · exact Or.inl (step1 h)
    · exact Or.inr h
  have step3 : d ∈ (process_source
      (process_source (process_source [] [] (source_items s1)).1
        (process_source [] [] (source_items s1)).2 (source_items s2)).1
      (process_source (process_source [] [] (source_items s1)).1
        (process_source [] [] (source_items s1)).2 (source_items s2)).2
      (source_items s3)).1 →
      d ∈ source_items s1 ∨ d ∈ source_items s2 ∨ d ∈ source_items s3 := by
    intro h
    rcases process_source_mem (source_items s3) _ _ d h with h | h
    · rcases step2 h with h | h
      · exact Or.inl h
      · exact Or.inr (Or.inl h)
    · exact Or.inr (Or.inr h)
  by_cases hc1 : (process_source [] [] (source_items s1)).1.length < 10
  · by_cases hc2 : (process_source (process_source [] [] (source_items s1)).1
        (process_source [] [] (source_items s1)).2 (source_items s2)).1.length < 10
    · by_cases hc3 : (process_source
          (process_source (process_source [] [] (source_items s1)).1
            (process_source [] [] (source_items s1)).2 (source_items s2)).1
          (process_source (process_source [] [] (source_items s1)).1
            (process_source [] [] (source_items s1)).2 (source_items s2)).2
          (source_items s3)).1.length < 10
      · have hd2 := by simpa [search_expired_domains, hc1, hc2, hc3] using hd
        rcases process_source_mem (source_items s4) _ _ d hd2 with h | h
        · rcases step3 h with h | h | h
          · exact Or.inl h
          · exact Or.inr (Or.inl h)
          · exact Or.inr (Or.inr (Or.inl h))
        · exact Or.inr (Or.inr (Or.inr h))
      · have hd2 := by simpa [search_expired_domains, hc1, hc2, hc3] using hd
        rcases step3 hd2 with h | h | h
        · exact Or.inl h
        · exact Or.inr (Or.inl h)
        · exact Or.inr (Or.inr (Or.inl h))
    · have hd2 := by simpa [search_expired_domains, hc1, hc2] using hd
      rcases step2 hd2 with h | h
      · exact Or.inl h
      · exact Or.inr (Or.inl h)
  · have hd2 := by simpa [search_expired_domains, hc1] using hd
    exact Or.inl (step1 hd2)

/-- C10: every `ExpiredDomain` returned by `search_expired_domains` has a
domain string containing at least one `.` — each of the four source
adapters silently drops any candidate entry or line whose domain contains
no dot. -/
theorem C10_all_domains_have_dot :
    (∀ (keyword tld : String) (response : Except String (Option (List DomainsDBDomain))),
      ∀ d ∈ source_items (search_domainsdb keyword tld response),
        strContainsChar d.domain '.' = true) ∧
    (∀ (keyword tld : String) (response : Except String String),
      ∀ d ∈ source_items (search_dynadot keyword tld response),
        strContainsChar d.domain '.' = true) ∧
    (∀ (keyword tld : String) (f1 f2 : UrlFetch),
      ∀ d ∈ source_items (search_namejet keyword tld f1 f2),
        strContainsChar d.domain '.' = true) ∧
    (∀ (keyword tld : String) (response : Except String String),
      ∀ d ∈ source_items (search_snapnames keyword tld response),
        strContainsChar d.domain '.' = true) ∧
    (∀ (keyword tld : String) (ddb : Except String (Option (List DomainsDBDomain)))
      (dyn : Except String String) (f1 f2 : UrlFetch) (sn : Except String String),
      ∀ d ∈ (search_expired_domains (search_domainsdb keyword tld ddb)
          (search_dynadot keyword tld dyn) (search_namejet keyword tld f1 f2)
          (search_snapnames keyword tld sn)).1,
        strContainsChar d.domain '.' = true) := by
  refine ⟨search_domainsdb_dot, search_dynadot_dot, search_namejet_dot,
    search_snapnames_dot, ?_⟩
  intro keyword tld ddb dyn f1 f2 sn d hd
  rcases search_expired_mem _ _ _ _ d hd with h | h | h | h
  · exact search_domainsdb_dot keyword tld ddb d h
  · exact search_dynadot_dot keyword tld dyn d h
  · exact search_namejet_dot keyword tld f1 f2 d h
  · exact search_snapnames_dot keyword tld sn d h

/-- C8 witness: a one-domain batch whose upstream world fails everywhere
still yields zero errors, and its verdict carries both sub-signals. -/
theorem C8_witness :
    (bulk_check ["a.com"]
        (["a.com"].map fun d => check_availability d
          { rdap_result := .error "x", cmd_output := .error "y"
            serialize := fun _ => "", a := .error "e", aaaa := .error "e"
            mx := .error "e", txt := .error "e", ns := .error "e"
            cname := .error "e", soa := .error "e" })).summary.errors = 0 ∧
    ((bulk_check ["a.com"]
        (["a.com"].map fun d => check_availability d
          { rdap_result := .error "x", cmd_output := .error "y"
            serialize := fun _ => "", a := .error "e", aaaa := .error "e"
            mx := .error "e", txt := .error "e", ns := .error "e"
            cname := .error "e", soa := .error "e" })).domains.getD 0
      (errorPlaceholder "z")).whois_available.isSome = true := by
  have h := C8_always_ok.2.2.2 ["a.com"]
    (fun _ =>
      { rdap_result := .error "x", cmd_output := .error "y"
        serialize := fun _ => "", a := .error "e", aaaa := .error "e"
        mx := .error "e", txt := .error "e", ns := .error "e"
        cname := .error "e", soa := .error "e" })
  exact ⟨h.1, (h.2 _ (by decide)).1⟩

/-- C10 witness: a concrete DomainsDB record flows through the aggregator
and its domain contains a dot. -/
theorem C10_witness :
    strContainsChar "abc.com" '.' = true :=
  C10_all_domains_have_dot.2.2.2.2 "" ""
    (.ok (some
      [{ domain := some "abc.com", create_date := none, update_date := none
         is_dead := some "True", a_records := none, ns_records := none }]))
    (.error "down") .fetchFail .fetchFail (.error "down")
    { domain := "abc.com", status := "expired", source := "DomainsDB"
      created := none, updated := none, end_time := none, appraisal := none
      starting_price := none, has_dns := some false }
    (by decide)

end DomainMcp
